import Mathlib

/-!
Verification of the inu-py device runtime and robotics control subsystem.

Each Python function under scrutiny is shallowly embedded as an executable
Lean definition; machine behaviour (trigger dispatch, the robotics
interpreter loop, parsing, the sentry heartbeat monitor) is modelled as
explicit state passing with event traces.  Python exceptions are modelled
with `Except`.  Real arithmetic from the actuator motion profile is
modelled exactly over `ℚ`.
-/

deriving instance DecidableEq for Except

/-! ## Python string primitives

Structural (kernel-reducible) models of the Python `str` operations the
embedded code uses: `split(sep)` with a one-character separator,
`strip()`, `upper()` and `lower()` (the source only applies them to ASCII
opcode/subject text). -/

/-- Python `str.split(sep)` on character lists: splitting an empty string
yields one empty field, every separator occurrence starts a new (possibly
empty) field. -/
def split_chars (sep : Char) : List Char → List (List Char)
  | [] => [[]]
  | c :: rest =>
    let r := split_chars sep rest
    if c = sep then [] :: r
    else (c :: r.headD []) :: r.tail

/-- Python `s.split(sep)` for a single-character separator. -/
def py_split (sep : Char) (s : String) : List String :=
  (split_chars sep s.data).map (fun cs => ⟨cs⟩)

/-- Python `s.strip()`: remove leading and trailing whitespace. -/
def py_strip (s : String) : String :=
  ⟨((s.data.dropWhile Char.isWhitespace).reverse.dropWhile
      Char.isWhitespace).reverse⟩

/-- Python `s.upper()` (ASCII). -/
def py_upper (s : String) : String := ⟨s.data.map Char.toUpper⟩

/-- Python `s.lower()` (ASCII). -/
def py_lower (s : String) : String := ⟨s.data.map Char.toLower⟩

/-! ## Sentry heartbeat monitor (src/sentry/__init__.py) -/

/-- A registered device record in the sentry's pool (`sentry.Device`). -/
structure SDevice where
  device_id : String
  heartbeat_freq : ℚ
  last_heartbeat : Option ℚ
deriving DecidableEq

/-- Source `Device.has_expired(missed)`: True iff time since the last heartbeat
exceeds `heartbeat_freq * missed` (False when no heartbeat recorded). -/
def SDevice.has_expired (d : SDevice) (now : ℚ) (missed : ℚ) : Bool :=
  match d.last_heartbeat with
  | none => false
  | some t => decide (now - t > d.heartbeat_freq * missed)

/-- Source `Sentry.MISSED_HEARTBEATS_ALARM` (src/sentry/__init__.py line 43). -/
def MISSED_HEARTBEATS_ALARM : ℚ := 10

/-- The alert message raised for a dead device. -/
def death_alert (device_id : String) : String :=
  "Device <" ++ device_id ++ "> died"

/-- Source `Sentry.check_heartbeats`: alerts every expired device (in pool order)
and removes it from the pool.  Returns (alert messages, new pool). -/
def check_heartbeats (pool : List SDevice) (now : ℚ) :
    List String × List SDevice :=
  let del_list := (pool.filter
    (fun d => d.has_expired now MISSED_HEARTBEATS_ALARM)).map SDevice.device_id
  let alerts := del_list.map death_alert
  let pool' := pool.filter (fun d => decide (d.device_id ∉ del_list))
  (alerts, pool')

/-! ## Settings class dispatch (src/inu/schema/settings/__init__.py) -/

/-- Python exception kinds surfaced by the embedded code. -/
inductive PyErr
  | attributeError
  | valueError
  | badRequest
  | malformed
  | invalidDeviceId
  | unsupportedDeviceType
deriving DecidableEq

/-- The class attributes actually defined on `const.DeviceType`
(src/inu/const.py lines 23-41).  Note there is no ACTUATOR and no DOOR. -/
def DeviceTypeAttrs : List (String × String) :=
  [("UTILITY", "utility"), ("MONITOR", "monitor"), ("RELAY", "relay"),
   ("SWITCH", "switch"), ("MOTION", "motion"), ("RANGE", "range"),
   ("ROBOTICS", "robotics")]

/-- Python attribute access `DeviceType.<name>`: AttributeError when the
attribute is not defined on the class. -/
def getattrDeviceType (name : String) : Except PyErr String :=
  match DeviceTypeAttrs.lookup name with
  | some v => .ok v
  | none => .error .attributeError

/-- The settings classes the dispatch can return. -/
inductive SettingsClass
  | MotionSensor
  | RangeTrigger
  | ActuatorSettings
  | DoorSettings
  | RelaySettings
deriving DecidableEq

/-- Source `get_device_settings_class(dvc)`: the if/elif chain of the source,
with each `DeviceType.X` access modelled as an attribute lookup that can
raise AttributeError. -/
def get_device_settings_class (dvc : String) : Except PyErr SettingsClass := do
  let motion ← getattrDeviceType "MOTION"
  if dvc == motion then return .MotionSensor
  let range ← getattrDeviceType "RANGE"
  if dvc == range then return .RangeTrigger
  let actuator ← getattrDeviceType "ACTUATOR"
  if dvc == actuator then return .ActuatorSettings
  let door ← getattrDeviceType "DOOR"
  if dvc == door then return .DoorSettings
  let relay ← getattrDeviceType "RELAY"
  if dvc == relay then return .RelaySettings
  .error .unsupportedDeviceType

/-- Source `get_device_type_from_id(device_id)`: split on ".", require at least
two namespaces, validate the (lower-cased, stripped) first namespace via
`get_device_settings_class`. -/
def get_device_type_from_id (device_id : String) : Except PyErr String :=
  let parts := py_split '.' device_id
  if parts.length < 2 then .error .invalidDeviceId
  else do
    let device_type := py_lower (py_strip (parts.headD ""))
    let _ ← get_device_settings_class device_type
    .ok device_type

/-! ## Actuator motion profile (src/inu/hardware/robotics/actuator.py) -/

/-- Source `OpVector` (actuator.py lines 34-56), fields computed exactly over ℚ.
`ramp_time`, `full_spd_time` and `op_time` are stored in nanoseconds as in
the source. -/
structure OpVector where
  min_speed : ℚ
  speed : ℚ
  total_displacement : ℚ
  ramp_accel : ℚ
  ramp_time : ℚ
  ramp_displacement : ℚ
  full_displacement : ℚ
  full_spd_time : ℚ
  op_time : ℚ
deriving DecidableEq

/-- Source `OpVector.get_min_ramp_accel`: `(2 * speed ** 2) / total_displacement`. -/
def get_min_ramp_accel (speed total_displacement : ℚ) : ℚ :=
  (2 * speed ^ 2) / total_displacement

/-- Source `OpVector.__init__(min_speed, speed, distance, ramp_accel)`. -/
def OpVector.make (min_speed speed distance ramp_accel : ℚ) : OpVector :=
  let ra := max (get_min_ramp_accel speed distance) ramp_accel
  let rt := speed / ra
  let rd := ((speed - min_speed) + min_speed) / 2 * rt
  let fd := distance - rd * 2
  { min_speed := min_speed
    speed := speed
    total_displacement := distance
    ramp_accel := ra
    ramp_time := rt * 10 ^ 9
    ramp_displacement := rd
    full_displacement := fd
    full_spd_time := fd / speed * 10 ^ 9
    op_time := fd / speed * 10 ^ 9 + rt * 10 ^ 9 * 2 }

/-! ## Trigger dispatch (src/inu/app.py `InuApp.parse_trigger_code`) -/

/- Source `const.TriggerCode` (src/inu/const.py lines 147-157). -/
namespace TriggerCode

def CALIBRATE : Nat := 101
def LOCK_TOGGLE : Nat := 115
end TriggerCode

/-- The five control variants. -/
inductive CtrlKind
  | select
  | wait
  | move
  | colour
  | fx
deriving DecidableEq

/-- A parsed `Control`: the (upper-cased) opcode token, the positional
argument tokens, and the two modifier flags. -/
structure PCtrl where
  kind : CtrlKind
  code : String
  args : List String
  allow_int : Bool
  exec_mod : Bool
deriving DecidableEq

/-- Source `CONTROL_MAP` (robotics/__init__.py lines 256-274).  The dict
literal opens with a triple-quoted docstring string that is immediately
followed by the `"S"` key, and Python concatenates adjacent string
literals: the first key of the real dict is the docstring text with `S`
appended, not `"S"`.  That key contains spaces and lowercase letters, so
no upper-cased space-split opcode token can ever equal it: the alias `S`
documented on `Select.ALIASES` is unreachable through the map. -/
def CONTROL_MAP : List (String × CtrlKind) :=
  [("\n    Mapping from string codes into control classes.\n    S", .select),
   ("SEL", .select), ("SELECT", .select),
   ("W", .wait), ("WAIT", .wait),
   ("M", .move), ("MV", .move), ("MOVE", .move),
   ("C", .colour), ("COL", .colour), ("COLOUR", .colour), ("COLOR", .colour),
   ("FX", .fx)]

def Select.ALIASES : List String := ["SEL", "S", "SELECT"]
def Wait.ALIASES : List String := ["W", "WAIT"]
def Move.ALIASES : List String := ["M", "MV", "MOVE"]
def Colour.ALIASES : List String := ["C", "COL", "COLOUR", "COLOR"]

/-- The modifier-consuming loop of `Control._parse`: `INT` sets
`allow_int`, `!` sets `execute`, anything else is a positional argument. -/
def parse_args (toks : List String) : List String × Bool × Bool :=
  match toks with
  | [] => ([], false, false)
  | t :: rest =>
    let (args, ai, ex) := parse_args rest
    if t = "INT" then (args, true, ex)
    else if t = "!" then (args, ai, true)
    else (t :: args, ai, ex)

/-- Source `Control._parse(cmd)` followed by the subclass `__init__` check for
`kind` (robotics/__init__.py lines 38-58 and the subclass constructors).
The Colour check is the source's chained comparison
`3 > len(self.args) < 5`, i.e. `len < 3 ∧ len < 5`. -/
def parse_control (kind : CtrlKind) (cmd : String) : Except PyErr PCtrl :=
  let toks := py_split ' ' (py_upper (py_strip cmd))
  if toks.length < 2 then .error .malformed
  else
    let code := toks.headD ""
    let (args, allow_int, exec_mod) := parse_args toks.tail
    if args.length < 1 then .error .malformed
    else
      let ctrl : PCtrl := ⟨kind, code, args, allow_int, exec_mod⟩
      match kind with
      | .select =>
        if code ∉ Select.ALIASES ∨ args.length ≠ 1 then .error .malformed
        else .ok ctrl
      | .wait =>
        if code ∉ Wait.ALIASES ∨ args.length ≠ 1 then .error .malformed
        else .ok ctrl
      | .move =>
        if code ∉ Move.ALIASES ∨ args.length ≠ 2 then .error .malformed
        else .ok ctrl
      | .colour =>
        if code ∉ Colour.ALIASES ∨ (3 > args.length ∧ args.length < 5) then
          .error .malformed
        else .ok ctrl
      | .fx =>
        if args.length ≠ 5 then .error .malformed
        else .ok ctrl

/-- Source `Robotics.control_from_string` (robotics/__init__.py lines 526-535):
unknown opcodes raise BadRequest, otherwise the mapped class parses. -/
def control_from_string (ctrl : String) : Except PyErr PCtrl :=
  let code := (py_split ' ' (py_upper (py_strip ctrl))).headD ""
  match CONTROL_MAP.lookup code with
  | none => .error .badRequest
  | some kind => parse_control kind ctrl

/-! ## LED strip execute (src/inu/hardware/robotics/apa102.py) -/

/-- Decimal digit value of a character. -/
def digit_val (c : Char) : Option Nat :=
  if '0' ≤ c ∧ c ≤ '9' then some (c.toNat - '0'.toNat) else none

/-- Accumulate a decimal number from characters; `none` on a non-digit. -/
def parse_digits_aux (acc : Nat) : List Char → Option Nat
  | [] => some acc
  | c :: rest =>
    match digit_val c with
    | some d => parse_digits_aux (acc * 10 + d) rest
    | none => none

/-- Python `int(...)` applied to an argument token: optional surrounding
whitespace, optional sign, at least one decimal digit; anything else
raises ValueError. -/
def pyInt (s : String) : Except PyErr Int :=
  match (py_strip s).data with
  | [] => .error .valueError
  | '-' :: rest =>
    match rest, parse_digits_aux 0 rest with
    | _ :: _, some n => .ok (-(n : Int))
    | _, _ => .error .valueError
  | '+' :: rest =>
    match rest, parse_digits_aux 0 rest with
    | _ :: _, some n => .ok (n : Int)
    | _, _ => .error .valueError
  | cs =>
    match parse_digits_aux 0 cs with
    | some n => .ok (n : Int)
    | none => .error .valueError

/-- The attributes actually defined on `Fx.FX`
(robotics/__init__.py lines 209-214). -/
def FxFXAttrs : List (String × String) :=
  [("FADE", "FADE"), ("SWEEP_LEFT", "SWEEP_LEFT"),
   ("SWEEP_RIGHT", "SWEEP_RIGHT"), ("PULSE_LEFT", "PULSE_LEFT"),
   ("PULSE_RIGHT", "PULSE_RIGHT")]

/-- Python attribute access `Fx.FX.<name>`. -/
def getattrFxFX (name : String) : Except PyErr String :=
  match FxFXAttrs.lookup name with
  | some v => .ok v
  | none => .error .attributeError

/-- Source `Colour.get_brightness`: fourth positional argument, default 31. -/
def get_brightness (c : PCtrl) : Except PyErr Int :=
  if c.args.length > 3 then pyInt (c.args.getD 3 "") else .ok 31

/-- Calls made against the `apa102` strip driver. -/
inductive LedEvent
  | fill (r g b brightness : Int) (write : Bool)
  | fade (r g b brightness : Int) (duration : Int)
  | slide (r g b brightness : Int) (duration : Int) (left : Bool)
  | pulse (r g b brightness : Int) (duration : Int) (left : Bool)
deriving DecidableEq

/-- Source `Apa102.execute(ctrl, reverse)` (apa102.py lines 22-56).  The branch
guards evaluate `Fx.FX.SLIDE_L`, `Fx.FX.SLIDE_R`, `Fx.FX.PULSE_L` and
`Fx.FX.PULSE_R` via attribute access, exactly as the source does. -/
def Apa102.execute (ctrl : PCtrl) : Except PyErr (List LedEvent) := do
  if ctrl.kind = .colour then
    let r ← pyInt (ctrl.args.getD 0 "")
    let g ← pyInt (ctrl.args.getD 1 "")
    let b ← pyInt (ctrl.args.getD 2 "")
    let br ← get_brightness ctrl
    return [.fill r g b br ctrl.exec_mod]
  else if ctrl.kind = .fx then
    let fx := ctrl.args.getD 4 ""
    let fade_attr ← getattrFxFX "FADE"
    if fx = fade_attr then
      let r ← pyInt (ctrl.args.getD 0 "")
      let g ← pyInt (ctrl.args.getD 1 "")
      let b ← pyInt (ctrl.args.getD 2 "")
      let dur ← pyInt (ctrl.args.getD 3 "")
      return [.fade r g b 31 dur]
    else
      let slide_l ← getattrFxFX "SLIDE_L"
      if fx = slide_l then
        let r ← pyInt (ctrl.args.getD 0 "")
        let g ← pyInt (ctrl.args.getD 1 "")
        let b ← pyInt (ctrl.args.getD 2 "")
        let dur ← pyInt (ctrl.args.getD 3 "")
        return [.slide r g b 31 dur true]
      else
        let slide_r ← getattrFxFX "SLIDE_R"
        if fx = slide_r then
          let r ← pyInt (ctrl.args.getD 0 "")
          let g ← pyInt (ctrl.args.getD 1 "")
          let b ← pyInt (ctrl.args.getD 2 "")
          let dur ← pyInt (ctrl.args.getD 3 "")
          return [.slide r g b 31 dur false]
        else
          let pulse_l ← getattrFxFX "PULSE_L"
          if fx = pulse_l then
            let r ← pyInt (ctrl.args.getD 0 "")
            let g ← pyInt (ctrl.args.getD 1 "")
            let b ← pyInt (ctrl.args.getD 2 "")
            let dur ← pyInt (ctrl.args.getD 3 "")
            return [.pulse r g b 31 dur true]
          else
            let pulse_r ← getattrFxFX "PULSE_R"
            if fx = pulse_r then
              let r ← pyInt (ctrl.args.getD 0 "")
              let g ← pyInt (ctrl.args.getD 1 "")
              let b ← pyInt (ctrl.args.getD 2 "")
              let dur ← pyInt (ctrl.args.getD 3 "")
              return [.pulse r g b 31 dur false]
            else
              return []
  else
    return []

/-! ## Actuator drive entry (src/inu/hardware/robotics/actuator.py) -/

/-- Pin state of the stepper driver plus the remembered displacement of the
last operation. -/
structure ActState where
  displacement : ℚ
  enabled_pin : Bool
  direction_pin : Bool
deriving DecidableEq

/-- Hardware actions taken by `Actuator.drive` before (and when entering)
its pulse loop. -/
inductive DriveEvent
  | set_power (b : Bool)
  | set_direction (d : Bool)
  | pwm_start (freq : Int)
deriving DecidableEq

/-- Outcome of the `drive` entry sequence: an early return because the
armed end-stop was already active, or the pulse loop was entered with the
computed motion profile. -/
inductive DriveOutcome
  | halted
  | started (op : OpVector)
deriving DecidableEq

/-- Source `Actuator.pulse_rate_from_speed` with the screw parameters. -/
def pulse_rate_from_speed (steps_per_rev screw_lead : ℚ) (speed : ℚ) : ℚ :=
  speed / screw_lead * steps_per_rev

/-- Source `Actuator.drive(distance, speed, direction)` (actuator.py lines
150-193) up to and including the start of PWM output: power-up, direction
set, the end-stop early return, the `OpVector` computation and the
displacement reset.  `fwd_stop` / `rev_stop` are `some b` when the switch
is configured and currently reads `b`, `none` when absent.  The pulse loop
itself is wall-clock driven and is not entered when the outcome is
`halted`. -/
def Actuator.drive_entry (st : ActState) (screw_forward : Bool)
    (steps_per_rev screw_lead : ℚ) (ramp_accel : ℚ)
    (fwd_stop rev_stop : Option Bool)
    (distance speed : ℚ) (direction : Bool) :
    ActState × List DriveEvent × DriveOutcome :=
  let fwd := direction
  let dir := !(xor screw_forward direction)
  let st1 := if st.enabled_pin = false then { st with enabled_pin := true }
    else st
  let evs1 : List DriveEvent :=
    if st.enabled_pin = false then [DriveEvent.set_power true] else []
  let st2 := if st1.direction_pin ≠ dir then { st1 with direction_pin := dir }
    else st1
  let evs2 := evs1 ++
    (if st1.direction_pin ≠ dir then [DriveEvent.set_direction dir] else [])
  if fwd ∧ fwd_stop = some true then (st2, evs2, .halted)
  else if ¬fwd ∧ rev_stop = some true then (st2, evs2, .halted)
  else
    let op := OpVector.make 10 speed distance ramp_accel
    ({ st2 with displacement := 0 },
     evs2 ++ [DriveEvent.pwm_start
       (round (pulse_rate_from_speed steps_per_rev screw_lead op.min_speed))],
     .started op)

/-! ## Robotics interpreter (src/inu/hardware/robotics/__init__.py,
`Robotics.run_list` / `run_int_list` / `prepare_int_list` / `interrupt`) -/

/-- A control as the interpreter sees it: `Select`, `Wait`, or a tangible
control (`Move` / `Colour` / `Fx`) identified by a tag; `run_list` treats
all tangibles alike, passing them opaquely to the selected driver's
`execute`. -/
inductive RCtrl
  | sel (dev : String) (comp : Option String)
  | wait (ms : Nat) (int_mod : Bool)
  | tang (id : Nat) (int_mod : Bool)
deriving DecidableEq

instance : Inhabited RCtrl := ⟨.wait 0 false⟩

/-- Source `Control.allow_interrupt`: `Select` always allows interrupts
through; `Wait` and tangible controls use their `INT` flag. -/
def RCtrl.allow_interrupt : RCtrl → Bool
  | .sel _ _ => true
  | .wait _ i => i
  | .tang _ i => i

/-- Whether a control is a `Select`. -/
def RCtrl.isSel : RCtrl → Bool
  | .sel _ _ => true
  | _ => false

/-- Whether a control is tangible. -/
def RCtrl.isTang : RCtrl → Bool
  | .tang _ _ => true
  | _ => false

/-- Observable actions of the robotics interpreter. -/
inductive REv
  | select_component (dev : String) (comp : Option String)
  | sleep (ms : Nat)
  | dev_execute (dev : String) (id : Nat) (reverse : Bool)
  | power_on
  | log_reversing
  | log_replaying
  | log_int_done
  | log_no_sel
deriving DecidableEq

/-- The `Robotics` object state relevant to execution: selected device,
interrupt flags, master power, plus a global dispatch counter used to
locate asynchronous `interrupt()` requests in time. -/
structure RoboSt where
  active_device : Option String
  interrupted : Bool
  allow_int_flag : Bool
  powered : Bool
  step : Nat
deriving DecidableEq

/-- Errors of the interpreter: `BadRequest` from the source, plus fuel
exhaustion of the bounded model. -/
inductive RErr
  | badRequest
  | noFuel
deriving DecidableEq

/-- Source `Robotics.reset_state`: clears selection and interrupt flags. -/
def reset_state (st : RoboSt) : RoboSt :=
  { st with active_device := none, interrupted := false,
            allow_int_flag := false }

/-- Source `Robotics.ready_devices`: powers up if unpowered. -/
def ready_devices (st : RoboSt) : RoboSt × List REv :=
  if st.powered then (st, []) else ({ st with powered := true }, [.power_on])

/-- Source `Robotics.interrupt` (robotics/__init__.py lines 507-518):
accepted (and the `interrupted` flag set) only when a device is selected
and the current operation allows interruption. -/
def robotics_interrupt (st : RoboSt) : RoboSt × Bool :=
  if st.active_device.isSome ∧ st.allow_int_flag then
    ({ st with interrupted := true }, true)
  else (st, false)

/-- An asynchronous `interrupt()` request scheduled during the control
dispatched at global step `s` (the scheduler decides at each dispatched
control whether another task invoked `interrupt()` while it ran). -/
def apply_request (sched : Nat → Bool) (s : Nat) (st : RoboSt) : RoboSt :=
  if sched s then (robotics_interrupt st).1 else st

/-- Source `Robotics.prepare_int_list` (lines 482-505): reverse the chain
minus its last (partially completed) element, skipping `Wait`s, moving
each `SEL` in front of the tangibles that followed it; tangibles with no
preceding `SEL` are appended anyway and flagged (the warning log).
Returns (reversed list, warning-logged). -/
def prepare_int_list (control_list : List RCtrl) : List RCtrl × Bool :=
  let folded := (control_list.dropLast.reverse).foldl
    (fun (acc : List RCtrl × List RCtrl) ctrl =>
      match ctrl with
      | .sel d c => (acc.1 ++ RCtrl.sel d c :: acc.2, [])
      | .wait _ _ => acc
      | .tang id i => (acc.1, acc.2 ++ [RCtrl.tang id i]))
    ([], [])
  if folded.2.length > 0 then (folded.1 ++ folded.2, true) else (folded.1, false)

/-- Source `Robotics.select_device`: BadRequest when the device is not
registered, else select it and pass the component to the driver. -/
def select_device (reg : List String) (st : RoboSt) (dev : String)
    (comp : Option String) : Except RErr (RoboSt × List REv) :=
  if dev ∈ reg then
    .ok ({ st with active_device := some dev }, [.select_component dev comp])
  else .error .badRequest

/-- The dispatch loop of `Robotics.run_int_list` over the prepared list:
send each control to the selected driver with `reverse=True`; asynchronous
`interrupt()` requests are still evaluated at every control but the loop
never consults the `interrupted` flag and never touches `allow_int_flag`. -/
def run_int_go (reg : List String) (sched : Nat → Bool) (st : RoboSt) :
    List RCtrl → Except RErr (RoboSt × List REv)
  | [] => .ok (st, [])
  | ctrl :: rest =>
    let s := st.step
    let st1 := { st with step := s + 1 }
    let disp : Except RErr (RoboSt × List REv) :=
      match ctrl with
      | .sel d comp => select_device reg st1 d comp
      | .wait ms _ => .ok (st1, [REv.sleep ms])
      | .tang id _ =>
        match st1.active_device with
        | none => .error RErr.badRequest
        | some d => .ok (st1, [REv.dev_execute d id true])
    match disp with
    | .error e => .error e
    | .ok (st2, evs) =>
      let st3 := apply_request sched s st2
      match run_int_go reg sched st3 rest with
      | .error e => .error e
      | .ok (st4, rest_evs) => .ok (st4, evs ++ rest_evs)

/-- Source `Robotics.run_int_list` (lines 460-480): prepare the chain (the
warning is logged inside `prepare_int_list`), then dispatch each control
via `run_int_go`. -/
def run_int_list (reg : List String) (sched : Nat → Bool) (st : RoboSt)
    (control_list : List RCtrl) : Except RErr (RoboSt × List REv) :=
  let prepared := prepare_int_list control_list
  let warn_evs : List REv := if prepared.2 then [.log_no_sel] else []
  match run_int_go reg sched st prepared.1 with
  | .ok (st', evs) => .ok (st', warn_evs ++ evs)
  | .error e => .error e

/-- Source `Robotics.run_list` main loop (lines 390-441).  Carries the
local variables `int_chain` and `last_sel`; on each control it updates the
rolling interrupt chain (a non-interruptible control clears it but
re-appends the last `SEL`), dispatches, evaluates any pending
`interrupt()` request, and — when the `interrupted` flag is set — resets
state, reverses the chain via `run_int_list`, resets again and replays the
chain through a nested `run_list` (which first calls `ready_devices`),
then continues with the remaining controls.  `fuel` bounds the total work
(one unit per dispatched control); exhaustion is an artefact of the
bounded model, never reached by a terminating source run. -/
def run_loop : Nat → List String → (Nat → Bool) → RoboSt → List RCtrl →
    Option RCtrl → List RCtrl → Except RErr (RoboSt × List REv)
  | _, _, _, st, _, _, [] => .ok (st, [])
  | 0, _, _, _, _, _, _ :: _ => .error .noFuel
  | Nat.succ fuel, reg, sched, st, int_chain, last_sel, ctrl :: rest =>
    let upd :=
      if ctrl.allow_interrupt then
        (int_chain ++ [ctrl], { st with allow_int_flag := true })
      else
        ((match last_sel with | some s => [s] | none => []),
         { st with allow_int_flag := false })
    let int_chain2 := upd.1
    let s := upd.2.step
    let st1 := { upd.2 with step := s + 1 }
    let disp : Except RErr (RoboSt × List REv × Option RCtrl) :=
      match ctrl with
      | .sel d comp =>
        match select_device reg st1 d comp with
        | .error e => .error e
        | .ok r => .ok (r.1, r.2, some ctrl)
      | .wait ms _ => .ok (st1, [REv.sleep ms], last_sel)
      | .tang id _ =>
        match st1.active_device with
        | none => .error RErr.badRequest
        | some d => .ok (st1, [REv.dev_execute d id false], last_sel)
    match disp with
    | .error e => .error e
    | .ok (st2, evs, last_sel2) =>
      let st3 := apply_request sched s st2
      if st3.interrupted then
        match run_int_list reg sched (reset_state st3) int_chain2 with
        | .error e => .error e
        | .ok (st5, rev_evs) =>
          let rd := ready_devices (reset_state st5)
          match run_loop fuel reg sched rd.1 [] none int_chain2 with
          | .error e => .error e
          | .ok (st8, fwd_evs) =>
            match run_loop fuel reg sched st8 int_chain2 last_sel2 rest with
            | .error e => .error e
            | .ok (st9, rest_evs) =>
              .ok (st9, evs ++ REv.log_reversing :: rev_evs
                ++ REv.log_replaying :: rd.2 ++ fwd_evs
                ++ REv.log_int_done :: rest_evs)
      else
        match run_loop fuel reg sched st3 int_chain2 last_sel2 rest with
        | .error e => .error e
        | .ok (st4, rest_evs) => .ok (st4, evs ++ rest_evs)

/-- Source `Robotics.run_list`: `ready_devices` then the main loop with a
fresh (empty) interrupt chain. -/
def run_list (fuel : Nat) (reg : List String) (sched : Nat → Bool)
    (st : RoboSt) (control_list : List RCtrl) :
    Except RErr (RoboSt × List REv) :=
  let rd := ready_devices st
  match run_loop fuel reg sched rd.1 [] none control_list with
  | .ok (st', evs) => .ok (st', rd.2 ++ evs)
  | .error e => .error e

/-- The rolling-chain update `run_list` performs before dispatching a
control: interruptible controls are appended, a non-interruptible control
clears the chain but retains the most recent `SEL`. -/
def chain_step (int_chain : List RCtrl) (last_sel : Option RCtrl)
    (c : RCtrl) : List RCtrl :=
  if c.allow_interrupt then int_chain ++ [c]
  else match last_sel with | some s => [s] | none => []

/-- The `last_sel` memory update: a `SEL` replaces it. -/
def lsel_step (last_sel : Option RCtrl) (c : RCtrl) : Option RCtrl :=
  if c.isSel then some c else last_sel

/-- The dispatch of one control in the forward loop (reverse=False). -/
def disp_result (reg : List String) (st1 : RoboSt) :
    RCtrl → Except RErr (RoboSt × List REv)
  | .sel d comp => select_device reg st1 d comp
  | .wait ms _ => .ok (st1, [REv.sleep ms])
  | .tang id _ =>
    match st1.active_device with
    | none => .error RErr.badRequest
    | some d => .ok (st1, [REv.dev_execute d id false])

/-- The driver `execute` calls contained in a trace, in order. -/
def driver_calls (evs : List REv) : List (String × Nat × Bool) :=
  evs.filterMap fun e =>
    match e with
    | .dev_execute d id r => some (d, id, r)
    | _ => none

/-- Reference semantics of a straight-line pass: the driver calls a list
of controls produces when executed in order with no interrupts, with
`reverse` fixed — `SEL` retargets, `WAIT` is silent, tangibles go to the
currently selected device. -/
def plain_calls (reverse : Bool) (dev : Option String) :
    List RCtrl → List (String × Nat × Bool)
  | [] => []
  | .sel d _ :: rest => plain_calls reverse (some d) rest
  | .wait _ _ :: rest => plain_calls reverse dev rest
  | .tang id _ :: rest =>
    (match dev with | some d => [(d, id, reverse)] | none => [])
      ++ plain_calls reverse dev rest

/-- The rolling interrupt chain after processing a list of controls,
starting from a given chain and last-`SEL` memory (the fold performed by
the `run_list` loop). -/
def chain_fold (p : List RCtrl × Option RCtrl) :
    List RCtrl → List RCtrl × Option RCtrl
  | [] => p
  | c :: rest =>
    let chain' :=
      if c.allow_interrupt then p.1 ++ [c]
      else (match p.2 with | some s => [s] | none => [])
    let lsel' := if c.isSel then some c else p.2
    chain_fold (chain', lsel') rest

/-- The most recent `SEL` after processing a list of controls. -/
def last_sel_after (lsel : Option RCtrl) : List RCtrl → Option RCtrl
  | [] => lsel
  | c :: rest => last_sel_after (if c.isSel then some c else lsel) rest

/-- The selected device after processing a list of controls. -/
def active_after (dev : Option String) : List RCtrl → Option String
  | [] => dev
  | .sel d _ :: rest => active_after (some d) rest
  | _ :: rest => active_after dev rest

/-! ## Trigger consumer lifecycle (src/inu/app.py `on_settings_updated`,
`on_disconnect`) -/

/-- The three consumer families created by `on_settings_updated`. -/
inductive ConsKind
  | trigger
  | ota
  | reboot
deriving DecidableEq

/-- A durable consumer live on the JetStream server, keyed by its
generated name, filtering one subject. -/
structure ServerConsumer where
  name : Nat
  subject : String
  kind : ConsKind
deriving DecidableEq

/-- The bus-side consumer table. -/
structure BusState where
  consumers : List ServerConsumer
  next_name : Nat
deriving DecidableEq

/-- Modelled from the spec: `micro_nats` `consumer.create` (spec §4.A,
the `micro_nats` library is not under src/) registers a durable consumer
and returns its handle; each creation yields a fresh opaque name. -/
def create_consumer (bus : BusState) (kind : ConsKind) (subject : String) :
    BusState × Nat :=
  ({ consumers := bus.consumers ++ [⟨bus.next_name, subject, kind⟩],
     next_name := bus.next_name + 1 }, bus.next_name)

/-- Modelled from the spec: `micro_nats` `consumer.delete` (spec §4.A)
removes the named consumer; a missing name is a tolerated `NotFoundError`
(`on_settings_updated` swallows it). -/
def delete_consumer (bus : BusState) (name : Nat) : BusState :=
  { bus with consumers := bus.consumers.filter (fun c => c.name ≠ name) }

/-- The subjects `on_settings_updated` listens on: `listen_subjects`
split on single spaces (when the settings carry that attribute) plus the
device's central subject. -/
def listen_subject_list (central : String) (listen_subjects : Option String) :
    List String :=
  match listen_subjects with
  | none => [central]
  | some ls => py_split ' ' ls ++ [central]

/-- One step of the consumer-creation loop of `on_settings_updated`
(app.py lines 238-255): skip blank subjects, otherwise create a trigger
consumer for the subject and record its name. -/
def add_trigger_consumer (acc : List Nat × BusState) (subject : String) :
    List Nat × BusState :=
  if py_strip subject = "" then acc
  else
    let r := create_consumer acc.2 .trigger subject
    (acc.1 ++ [r.2], r.1)

/-- Source `InuApp.on_settings_updated` (app.py lines 203-287): delete
every recorded consumer, then create one trigger consumer per non-blank
subject, then the OTA and reboot consumers; every created name is
appended to the recorded list (which the source never clears). -/
def on_settings_updated (central : String) (listen_subjects : Option String)
    (recorded : List Nat) (bus : BusState) : List Nat × BusState :=
  let bus1 := recorded.foldl delete_consumer bus
  let created := (listen_subject_list central listen_subjects).foldl
    add_trigger_consumer (recorded, bus1)
  let r_ota := create_consumer created.2 .ota central
  let r_reboot := create_consumer r_ota.1 .reboot central
  (created.1 ++ [r_ota.2, r_reboot.2], r_reboot.1)

/-- Source `InuApp.on_disconnect` (app.py lines 342-348): the recorded
consumer handles are discarded. -/
def on_disconnect (_recorded : List Nat) : List Nat := []

/-- The trigger consumers the creation loop of `on_settings_updated` adds
for a subject list, with names allocated from `n` upward (blank subjects
skipped). -/
def new_triggers : List String → Nat → List ServerConsumer
  | [], _ => []
  | s :: rest, n =>
    if py_strip s = "" then new_triggers rest n
    else ⟨n, s, .trigger⟩ :: new_triggers rest (n + 1)

/-! ## Helper lemmas -/

/-- Every device type other than motion and range trips the
`DeviceType.ACTUATOR` attribute access. -/
theorem gdsc_attribute_error (dvc : String) (h1 : dvc ≠ "motion")
    (h2 : dvc ≠ "range") :
    get_device_settings_class dvc = .error .attributeError := by
  simp [get_device_settings_class, getattrDeviceType, DeviceTypeAttrs,
    List.lookup, Bind.bind, Except.bind, Pure.pure, Except.pure, h1, h2]

/-- Membership of a projected id in a filtered pool, when ids are unique. -/
theorem mem_filter_map_device_id (l : List SDevice) (p : SDevice → Bool)
    (d : SDevice) (hnd : (l.map SDevice.device_id).Nodup) (hd : d ∈ l) :
    (d.device_id ∈ (l.filter p).map SDevice.device_id ↔ p d = true) := by
  constructor
  · intro hmem
    rcases List.mem_map.mp hmem with ⟨e, hef, heq⟩
    have hel := List.mem_of_mem_filter hef
    have hpe := List.of_mem_filter hef
    have hed : e = d := List.inj_on_of_nodup_map hnd hel hd heq
    rwa [hed] at hpe
  · intro hp
    exact List.mem_map_of_mem _ (List.mem_filter.mpr ⟨hd, hp⟩)

/-! ## Claim C10 -/

/-- C10: for every device-type string other than "motion" and "range" —
including the supported types "relay" and "robotics" —
`get_device_settings_class` raises AttributeError (the dispatch chain
evaluates `DeviceType.ACTUATOR`, an attribute not defined on
`DeviceType`) rather than returning a settings class or raising
UnsupportedDeviceType; consequently `get_device_type_from_id` succeeds
only when the first namespace is "motion" or "range", and raises
InvalidDeviceId for ids with fewer than two dot-separated namespaces. -/
theorem c10_device_type_dispatch :
    (∀ dvc : String, dvc ≠ "motion" → dvc ≠ "range" →
      get_device_settings_class dvc = .error .attributeError)
    ∧ (∀ device_id dt, get_device_type_from_id device_id = .ok dt →
        dt = "motion" ∨ dt = "range")
    ∧ (∀ device_id : String, (py_split '.' device_id).length < 2 →
        get_device_type_from_id device_id = .error .invalidDeviceId) := by
  refine ⟨fun dvc h1 h2 => gdsc_attribute_error dvc h1 h2, ?_, ?_⟩
  · intro device_id dt hok
    unfold get_device_type_from_id at hok
    by_cases hlen : (py_split '.' device_id).length < 2
    · simp [hlen] at hok
    · simp only [hlen, if_false] at hok
      set d0 := py_lower (py_strip ((py_split '.' device_id).headD ""))
        with hd0
      by_cases hm : d0 = "motion"
      · simp [Bind.bind, Except.bind, hm, get_device_settings_class,
          getattrDeviceType, DeviceTypeAttrs, List.lookup, Pure.pure,
          Except.pure] at hok
        exact Or.inl hok.symm
      · by_cases hr : d0 = "range"
        · simp [Bind.bind, Except.bind, hm, hr, get_device_settings_class,
            getattrDeviceType, DeviceTypeAttrs, List.lookup, Pure.pure,
            Except.pure] at hok
          exact Or.inr hok.symm
        · rw [gdsc_attribute_error d0 hm hr] at hok
          simp [Bind.bind, Except.bind] at hok
  · intro device_id hlen
    unfold get_device_type_from_id
    simp [hlen]

/-- C10 witness: "relay" (a supported device type) trips AttributeError,
and a one-namespace id is rejected. -/
theorem c10_witness :
    get_device_settings_class "relay" = .error .attributeError ∧
    get_device_type_from_id "relay" = .error .invalidDeviceId := by
  constructor
  · exact c10_device_type_dispatch.1 "relay" (by decide) (by decide)
  · exact c10_device_type_dispatch.2.2 "relay" (by decide)

/-! ## Claim C9 -/

/-- C9 counterexample: a device with heartbeat interval 1 s, registered at
t = 0, checked at t = 6 — more than 5 intervals have elapsed (the claim
says the "Device <x> died" alert fires once more than 5 × interval has
elapsed), yet `check_heartbeats` raises no alert and keeps the device. -/
theorem c9_counterexample :
    (6 : ℚ) - 0 > 5 * 1 ∧
    (check_heartbeats [⟨"x", 1, some 0⟩] 6).1 = [] ∧
    (check_heartbeats [⟨"x", 1, some 0⟩] 6).2 = [⟨"x", 1, some 0⟩] := by
  refine ⟨by norm_num, ?_, ?_⟩ <;>
    simp [check_heartbeats, SDevice.has_expired, MISSED_HEARTBEATS_ALARM] <;>
    norm_num

/-- C9 amended: `check_heartbeats` compares elapsed time against
`MISSED_HEARTBEATS_ALARM = 10` intervals (not 5): a device is alerted as
"Device <id> died" and removed from the pool iff strictly more than
10 × interval seconds have elapsed since its last heartbeat, i.e. at the
eleventh missed interval. -/
theorem c9_check_heartbeats (pool : List SDevice) (now : ℚ) (d : SDevice)
    (t : ℚ) (hnd : (pool.map SDevice.device_id).Nodup) (hd : d ∈ pool)
    (ht : d.last_heartbeat = some t) :
    (d.device_id ∈ (pool.filter
        (fun e => e.has_expired now MISSED_HEARTBEATS_ALARM)).map
          SDevice.device_id
      ↔ now - t > d.heartbeat_freq * 10)
    ∧ (check_heartbeats pool now).1 = ((pool.filter
        (fun e => e.has_expired now MISSED_HEARTBEATS_ALARM)).map
          SDevice.device_id).map death_alert
    ∧ (d ∈ (check_heartbeats pool now).2 ↔
        ¬(now - t > d.heartbeat_freq * 10)) := by
  have hexp : d.has_expired now MISSED_HEARTBEATS_ALARM =
      decide (now - t > d.heartbeat_freq * 10) := by
    simp [SDevice.has_expired, ht, MISSED_HEARTBEATS_ALARM]
  have hmem : d.device_id ∈ (pool.filter
      (fun e => e.has_expired now MISSED_HEARTBEATS_ALARM)).map
        SDevice.device_id
      ↔ d.has_expired now MISSED_HEARTBEATS_ALARM = true :=
    mem_filter_map_device_id pool
      (fun e => e.has_expired now MISSED_HEARTBEATS_ALARM) d hnd hd
  have hkey : d.device_id ∈ (pool.filter
      (fun e => e.has_expired now MISSED_HEARTBEATS_ALARM)).map
        SDevice.device_id
      ↔ now - t > d.heartbeat_freq * 10 := by
    rw [hmem, hexp]
    exact decide_eq_true_iff
  refine ⟨hkey, rfl, ?_⟩
  unfold check_heartbeats
  constructor
  · intro hin
    rw [List.mem_filter] at hin
    have h2 := of_decide_eq_true hin.2
    intro hgt
    exact h2 (hkey.mpr hgt)
  · intro hgt
    rw [List.mem_filter]
    exact ⟨hd, decide_eq_true (fun hmem2 => hgt (hkey.mp hmem2))⟩

/-- C9 witness: at t = 11 the same device has missed more than ten
1-second intervals and is alerted and removed. -/
theorem c9_witness :
    ((⟨"x", 1, some 0⟩ : SDevice).device_id ∈
      (([⟨"x", 1, some 0⟩] : List SDevice).filter
        (fun e => e.has_expired 11 MISSED_HEARTBEATS_ALARM)).map
          SDevice.device_id) ∧
    (⟨"x", 1, some 0⟩ : SDevice) ∉ (check_heartbeats [⟨"x", 1, some 0⟩] 11).2 := by
  have h := c9_check_heartbeats [⟨"x", 1, some 0⟩] 11 ⟨"x", 1, some 0⟩ 0
    (by simp) (by simp) rfl
  constructor
  · exact h.1.mpr (by norm_num)
  · intro hin
    exact absurd (h.2.2.mp hin) (by norm_num)

/-! ## Claim C5 -/

/-- C5 counterexample: for min_speed = 10, speed = 100, distance = 1000,
ramp_accel = 250 the code computes ramp_displacement = 20, not the
claimed (speed + min_speed)/2 · ramp_time = 22: the source expression
`((speed - min_speed) + min_speed) / 2` is speed/2, not
(speed + min_speed)/2. -/
theorem c5_counterexample :
    (OpVector.make 10 100 1000 250).ramp_displacement = 20 ∧
    (100 + 10 : ℚ) / 2 *
      ((OpVector.make 10 100 1000 250).speed /
        (OpVector.make 10 100 1000 250).ramp_accel) = 22 ∧
    (OpVector.make 10 100 1000 250).ramp_displacement ≠
      (100 + 10 : ℚ) / 2 *
        ((OpVector.make 10 100 1000 250).speed /
          (OpVector.make 10 100 1000 250).ramp_accel) := by
  refine ⟨?_, ?_, ?_⟩ <;> norm_num [OpVector.make, get_min_ramp_accel]

/-- C5 amended: with the effective acceleration
`ramp_accel = max (2·speed²/distance) requested`, the profile satisfies
ramp_time = speed/ramp_accel (stored ×10⁹ ns),
ramp_displacement = (speed/2)·(speed/ramp_accel) (the `(speed − min_speed)
+ min_speed` numerator collapses to speed, so min_speed does not enter),
full_speed_displacement = distance − 2·ramp_displacement; the clamp is
applied unconditionally (not only when full_speed_displacement would go
negative), keeps full_speed_displacement ≥ distance/2 ≥ 0, and when it
binds yields exactly distance/2 (the bound 2·speed²/distance is twice the
minimal acceleration speed²/distance that would permit reaching full
speed within the distance). -/
theorem c5_op_vector (min_speed speed distance ramp_accel : ℚ)
    (hs : 0 < speed) (hd : 0 < distance) :
    (OpVector.make min_speed speed distance ramp_accel).ramp_accel =
      max ((2 * speed ^ 2) / distance) ramp_accel
    ∧ (OpVector.make min_speed speed distance ramp_accel).ramp_time =
      speed / (OpVector.make min_speed speed distance ramp_accel).ramp_accel
        * 10 ^ 9
    ∧ (OpVector.make min_speed speed distance ramp_accel).ramp_displacement
      = speed / 2 *
        (speed / (OpVector.make min_speed speed distance ramp_accel).ramp_accel)
    ∧ (OpVector.make min_speed speed distance ramp_accel).full_displacement
      = distance - 2 *
        (OpVector.make min_speed speed distance ramp_accel).ramp_displacement
    ∧ distance / 2 ≤
      (OpVector.make min_speed speed distance ramp_accel).full_displacement
    ∧ (ramp_accel ≤ (2 * speed ^ 2) / distance →
        (OpVector.make min_speed speed distance ramp_accel).full_displacement
          = distance / 2) := by
  set R : ℚ := max ((2 * speed ^ 2) / distance) ramp_accel with hR
  have hra : (OpVector.make min_speed speed distance ramp_accel).ramp_accel
      = R := by
    simp only [OpVector.make, get_min_ramp_accel, hR]
  have hrt : (OpVector.make min_speed speed distance ramp_accel).ramp_time
      = speed / R * 10 ^ 9 := by
    simp only [OpVector.make, get_min_ramp_accel, hR]
  have hrd : (OpVector.make min_speed speed distance
      ramp_accel).ramp_displacement = speed / 2 * (speed / R) := by
    simp only [OpVector.make, get_min_ramp_accel, hR]
    ring
  have hfd' : (OpVector.make min_speed speed distance
      ramp_accel).full_displacement
      = distance - speed / 2 * (speed / R) * 2 := by
    simp only [OpVector.make, get_min_ramp_accel, hR]
    ring
  have hmin_pos : 0 < (2 * speed ^ 2) / distance := by positivity
  have hR_pos : 0 < R := lt_max_of_lt_left hmin_pos
  have hR_ge : (2 * speed ^ 2) / distance ≤ R := le_max_left _ _
  have hb : speed / 2 * (speed / R) ≤ distance / 4 := by
    have h1 : speed / 2 * (speed / R) = (speed ^ 2 / 2) / R := by
      ring
    rw [h1, div_le_iff₀ hR_pos]
    calc speed ^ 2 / 2 = ((2 * speed ^ 2) / distance) * (distance / 4) := by
          field_simp
          ring
      _ ≤ R * (distance / 4) :=
          mul_le_mul_of_nonneg_right hR_ge (by positivity)
      _ = distance / 4 * R := by ring
  refine ⟨hra.trans hR, by rw [hrt, hra], by rw [hrd, hra],
    by rw [hfd', hrd]; ring, ?_, ?_⟩
  · rw [hfd']
    linarith
  · intro hle
    have hmax : R = (2 * speed ^ 2) / distance := by
      rw [hR, max_eq_left hle]
    rw [hfd', hmax]
    have hs' : speed ≠ 0 := ne_of_gt hs
    have hd' : distance ≠ 0 := ne_of_gt hd
    field_simp
    ring

/-- C5 witness: at min_speed 10, speed 100, distance 50, requested
acceleration 250 the clamp binds (2·100²/50 = 400 > 250), and the
computed full-speed displacement is exactly distance/2 = 25. -/
theorem c5_witness :
    (OpVector.make 10 100 50 250).full_displacement = 50 / 2 ∧
    (OpVector.make 10 100 50 250).ramp_accel = 400 := by
  constructor
  · exact (c5_op_vector 10 100 50 250 (by norm_num) (by norm_num)).2.2.2.2.2
      (by norm_num [get_min_ramp_accel])
  · norm_num [OpVector.make, get_min_ramp_accel]

/-! ## Claim C1 -/

/-- C6: the claim is right about the intent (dispatch over the closed
effect set) and the code is wrong: `Apa102.execute` guards its non-FADE
branches with `Fx.FX.SLIDE_L` / `Fx.FX.SLIDE_R` / `Fx.FX.PULSE_L` /
`Fx.FX.PULSE_R`, attributes that do not exist on `Fx.FX` (which defines
FADE, SWEEP_LEFT, SWEEP_RIGHT, PULSE_LEFT, PULSE_RIGHT), so every Fx
control whose effect is not FADE raises AttributeError instead of
invoking the directional slide or pulse.  FADE and Colour behave as
specified (fill committed iff the `!` modifier was present). -/
theorem c6_fx_dispatch :
    control_from_string "FX 255 0 0 1000 SWEEP_LEFT" =
      .ok ⟨.fx, "FX", ["255", "0", "0", "1000", "SWEEP_LEFT"], false, false⟩
    ∧ Apa102.execute
        ⟨.fx, "FX", ["255", "0", "0", "1000", "SWEEP_LEFT"], false, false⟩
      = .error .attributeError
    ∧ Apa102.execute
        ⟨.fx, "FX", ["255", "0", "0", "1000", "PULSE_RIGHT"], false, false⟩
      = .error .attributeError
    ∧ Apa102.execute
        ⟨.fx, "FX", ["255", "0", "0", "1000", "FADE"], false, false⟩
      = .ok [.fade 255 0 0 31 1000]
    ∧ Apa102.execute ⟨.colour, "COL", ["10", "20", "30"], false, true⟩
      = .ok [.fill 10 20 30 31 true]
    ∧ Apa102.execute ⟨.colour, "COL", ["10", "20", "30", "7"], false, false⟩
      = .ok [.fill 10 20 30 7 false] := by
  refine ⟨?_, ?_, ?_, ?_, ?_, ?_⟩ <;> decide

/-! ## Claim C7 -/

/-- C7: the claim matches the documented intent (a Colour control carries
r, g, b and an optional brightness, so exactly 3 or 4 positional
arguments), but the source check `3 > len(self.args) < 5` is a chained
comparison equal to `len < 3 ∧ len < 5`, which never fires for five or
more arguments: `"C 1 2 3 4 5"` parses successfully.  The BadRequest
side of the claim is also broken: the `CONTROL_MAP` docstring swallows
the adjacent `"S"` key by string concatenation, so the documented
`Select` alias `S` does not resolve through the map and `"S devA"`
raises BadRequest even though `S` belongs to `Select.ALIASES`.  The rest
holds: genuinely unknown opcodes raise BadRequest, and missing
arguments (after consuming `INT` and `!`) raise Malformed. -/
theorem c7_colour_arity :
    control_from_string "C 1 2 3 4 5" =
      .ok ⟨.colour, "C", ["1", "2", "3", "4", "5"], false, false⟩
    ∧ control_from_string "S devA" = .error .badRequest
    ∧ "S" ∈ Select.ALIASES
    ∧ control_from_string "SEL devA" =
      .ok ⟨.select, "SEL", ["DEVA"], false, false⟩
    ∧ control_from_string "DANCE 500 100" = .error .badRequest
    ∧ control_from_string "INT MOVE 4000 200" = .error .badRequest
    ∧ control_from_string "MOVE 4000 INT" = .error .malformed
    ∧ control_from_string "C 1 2" = .error .malformed
    ∧ control_from_string "COL 1 2 3" =
      .ok ⟨.colour, "COL", ["1", "2", "3"], false, false⟩
    ∧ control_from_string "COL 1 2 3 4 !" =
      .ok ⟨.colour, "COL", ["1", "2", "3", "4"], false, true⟩ := by
  refine ⟨?_, ?_, ?_, ?_, ?_, ?_, ?_, ?_, ?_, ?_⟩ <;> decide

/-! ## Claim C8 -/

/-- C8 counterexample: `drive()` checks the direction-of-travel end-stop
before the `self.displacement = 0` reset (actuator.py lines 175-185), so
on a driver whose previous move left `displacement = 5` the early return
reports the stale 5, not the 0 the claim promises. -/
theorem c8_counterexample :
    (Actuator.drive_entry ⟨5, true, true⟩ true 1600 8 250
      (some true) none 500 100 true).2.2 = DriveOutcome.halted
    ∧ (Actuator.drive_entry ⟨5, true, true⟩ true 1600 8 250
        (some true) none 500 100 true).1.displacement = 5
    ∧ (5 : ℚ) ≠ 0 := by
  refine ⟨by decide, ?_, by norm_num⟩
  norm_num [Actuator.drive_entry]

/-- C8 amended: when the end-stop in the direction of travel is already
active as `drive()` is called, the driver returns before computing the
motion profile: no PWM output is ever started and no pulses are emitted,
but the `displacement` field is left UNCHANGED — the `self.displacement
= 0` reset sits after the end-stop check, so the early return reads 0
only on a driver that has not moved before. -/
theorem c8_endstop_early_return (st : ActState) (screw_forward : Bool)
    (steps_per_rev screw_lead ramp_accel distance speed : ℚ)
    (fwd_stop rev_stop : Option Bool) (direction : Bool)
    (hf : direction = true → fwd_stop = some true)
    (hr : direction = false → rev_stop = some true) :
    (Actuator.drive_entry st screw_forward steps_per_rev screw_lead
      ramp_accel fwd_stop rev_stop distance speed direction).2.2
      = DriveOutcome.halted
    ∧ (Actuator.drive_entry st screw_forward steps_per_rev screw_lead
        ramp_accel fwd_stop rev_stop distance speed direction).1.displacement
      = st.displacement
    ∧ ∀ f, DriveEvent.pwm_start f ∉
        (Actuator.drive_entry st screw_forward steps_per_rev screw_lead
          ramp_accel fwd_stop rev_stop distance speed direction).2.1 := by
  obtain ⟨dsp, en, dirp⟩ := st
  cases direction
  · have hrs := hr rfl
    subst hrs
    simp only [Actuator.drive_entry]
    norm_num
    refine ⟨?_, ?_⟩ <;> split_ifs <;> simp
  · have hfs := hf rfl
    subst hfs
    simp only [Actuator.drive_entry]
    norm_num
    refine ⟨?_, ?_⟩ <;> split_ifs <;> simp

/-- C8 witness: scenario S6 — forward end-stop closed, `MV 500 100`
forward on a driver with a stale displacement of 3: halted, displacement
still 3, no pulses. -/
theorem c8_witness :
    (Actuator.drive_entry ⟨3, false, false⟩ true 1600 8 250
      (some true) none 500 100 true).2.2 = DriveOutcome.halted
    ∧ (Actuator.drive_entry ⟨3, false, false⟩ true 1600 8 250
        (some true) none 500 100 true).1.displacement = 3
    ∧ DriveEvent.pwm_start 2000 ∉
        (Actuator.drive_entry ⟨3, false, false⟩ true 1600 8 250
          (some true) none 500 100 true).2.1 := by
  have h := c8_endstop_early_return ⟨3, false, false⟩ true 1600 8 250 500 100
    (some true) none true (fun _ => rfl) (fun hc => absurd hc (by decide))
  exact ⟨h.1, h.2.1, h.2.2 2000⟩

/-! ## Claim C4 helper lemmas -/

/-- Deleting every recorded consumer filters the recorded names out of the
server table and allocates no names. -/
theorem purge_consumers (rec : List Nat) (bus : BusState) :
    (rec.foldl delete_consumer bus).consumers
      = bus.consumers.filter (fun c => decide (c.name ∉ rec))
    ∧ (rec.foldl delete_consumer bus).next_name = bus.next_name := by
  induction rec generalizing bus with
  | nil => simp
  | cons n rest ih =>
    simp only [List.foldl_cons]
    refine ⟨?_, by rw [(ih (delete_consumer bus n)).2]; rfl⟩
    rw [(ih (delete_consumer bus n)).1]
    simp only [delete_consumer]
    rw [List.filter_filter]
    apply List.filter_congr
    intro c _
    by_cases h1 : c.name = n <;> by_cases h2 : c.name ∈ rest <;>
      simp [h1, h2]

/-- The consumer-creation fold appends exactly the `new_triggers` of the
subject list and advances the name allocator by the number of non-blank
subjects. -/
theorem create_fold (ss : List String) (rec : List Nat) (bus : BusState) :
    (ss.foldl add_trigger_consumer (rec, bus)).2.consumers
      = bus.consumers ++ new_triggers ss bus.next_name
    ∧ (ss.foldl add_trigger_consumer (rec, bus)).2.next_name
      = bus.next_name + (ss.filter (fun x => !(py_strip x == ""))).length := by
  induction ss generalizing rec bus with
  | nil => simp [new_triggers]
  | cons s rest ih =>
    rw [List.foldl_cons]
    by_cases hs : py_strip s = ""
    · rw [show add_trigger_consumer (rec, bus) s = (rec, bus) from by
        simp [add_trigger_consumer, hs]]
      simp only [new_triggers, hs, if_pos, List.filter_cons]
      simpa using ih rec bus
    · rw [show add_trigger_consumer (rec, bus) s = (rec ++ [bus.next_name],
        ⟨bus.consumers ++ [⟨bus.next_name, s, ConsKind.trigger⟩],
         bus.next_name + 1⟩) from by
        simp [add_trigger_consumer, hs, create_consumer]]
      have h2 : (!(py_strip s == "")) = true := by simp [hs]
      have := ih (rec ++ [bus.next_name])
        ⟨bus.consumers ++ [⟨bus.next_name, s, ConsKind.trigger⟩],
         bus.next_name + 1⟩
      simp only at this
      constructor
      · rw [this.1]
        simp only [new_triggers, hs, if_neg, List.append_assoc,
          List.cons_append, List.nil_append]
        simp
      · rw [this.2]
        simp only [List.filter_cons, h2, if_pos, List.length_cons]
        omega

/-- Names of newly created trigger consumers are allocated at or above the
starting name. -/
theorem new_triggers_names (ss : List String) (n : Nat) :
    ∀ c ∈ new_triggers ss n, n ≤ c.name := by
  induction ss generalizing n with
  | nil => simp [new_triggers]
  | cons s rest ih =>
    intro c hc
    simp only [new_triggers] at hc
    by_cases hs : py_strip s = ""
    · rw [if_pos hs] at hc
      exact ih n c hc
    · rw [if_neg hs] at hc
      rcases List.mem_cons.mp hc with rfl | hm
      · exact le_refl _
      · exact Nat.le_of_succ_le (ih (n + 1) c hm)

/-- Newly created per-subject consumers are trigger consumers. -/
theorem new_triggers_kind (ss : List String) (n : Nat) :
    ∀ c ∈ new_triggers ss n, c.kind = ConsKind.trigger := by
  induction ss generalizing n with
  | nil => simp [new_triggers]
  | cons s rest ih =>
    intro c hc
    simp only [new_triggers] at hc
    by_cases hs : py_strip s = ""
    · rw [if_pos hs] at hc
      exact ih n c hc
    · rw [if_neg hs] at hc
      rcases List.mem_cons.mp hc with rfl | hm
      · rfl
      · exact ih (n + 1) c hm

/-- The subjects of the newly created trigger consumers are exactly the
non-blank subjects, in order. -/
theorem new_triggers_map_subject (ss : List String) (n : Nat) :
    (new_triggers ss n).map ServerConsumer.subject
      = ss.filter (fun x => !(py_strip x == "")) := by
  induction ss generalizing n with
  | nil => simp [new_triggers]
  | cons s rest ih =>
    by_cases hs : py_strip s = ""
    · simp [new_triggers, hs, List.filter_cons, ih]
    · simp [new_triggers, hs, List.filter_cons, ih]

/-- Per-subject multiplicity of the newly created trigger consumers. -/
theorem new_triggers_count (ss : List String) (n : Nat) (s : String) :
    ((new_triggers ss n).filter
      (fun c => c.kind == ConsKind.trigger && c.subject == s)).length
      = ((ss.filter (fun x => !(py_strip x == ""))).filter
          (fun x => x == s)).length := by
  induction ss generalizing n with
  | nil => simp [new_triggers]
  | cons x rest ih =>
    by_cases hs : py_strip x = ""
    · simp only [new_triggers, hs, if_pos, List.filter_cons]
      simpa using ih n
    · simp only [new_triggers, hs, if_neg, List.filter_cons]
      have h2 : (!(py_strip x == "")) = true := by simp [hs]
      rw [h2]
      simp only [if_pos, List.filter_cons]
      by_cases hx : x = s
      · simp [hx, ih]
      · simp [hx, ih]

/-- Shape of the server table after `on_settings_updated`: the old table
minus every recorded consumer, then the new trigger consumers, then the
OTA and reboot consumers. -/
theorem on_settings_consumers (central : String) (listen : Option String)
    (recorded : List Nat) (bus : BusState) :
    (on_settings_updated central listen recorded bus).2.consumers
      = (bus.consumers.filter (fun c => decide (c.name ∉ recorded))
          ++ new_triggers (listen_subject_list central listen) bus.next_name)
        ++ [⟨bus.next_name + ((listen_subject_list central listen).filter
              (fun x => !(py_strip x == ""))).length, central, ConsKind.ota⟩,
            ⟨bus.next_name + ((listen_subject_list central listen).filter
              (fun x => !(py_strip x == ""))).length + 1, central,
              ConsKind.reboot⟩] := by
  have hp := purge_consumers recorded bus
  have hc := create_fold (listen_subject_list central listen) recorded
    (recorded.foldl delete_consumer bus)
  unfold on_settings_updated
  simp only [create_consumer]
  rw [hc.1, hc.2, hp.1, hp.2]
  simp [List.append_assoc]

/-- C4 amended: after `on_settings_updated`, no consumer recorded from the
previous settings remains (deletion precedes creation: the new table is
the purged old table extended with the new consumers); the subjects of
the active trigger consumers are exactly the non-blank members of
`{central} ∪ split(listen_subjects)`; and — provided that subject list
has no duplicates — exactly one trigger consumer exists per such subject
(the claim fails without that proviso, since the source creates one
consumer per occurrence); on disconnect all recorded handles are
discarded. -/
theorem c4_consumer_lifecycle (central : String) (listen : Option String)
    (recorded : List Nat) (bus : BusState)
    (hrec : ∀ n ∈ recorded, n < bus.next_name)
    (htrig : ∀ c ∈ bus.consumers, c.kind = ConsKind.trigger →
      c.name ∈ recorded) :
    (∀ n ∈ recorded,
      ∀ c ∈ (on_settings_updated central listen recorded bus).2.consumers,
        c.name ≠ n)
    ∧ (∀ s : String,
        (∃ c ∈ (on_settings_updated central listen recorded bus).2.consumers,
          c.kind = ConsKind.trigger ∧ c.subject = s)
        ↔ (s ∈ listen_subject_list central listen ∧ py_strip s ≠ ""))
    ∧ (((listen_subject_list central listen).filter
          (fun x => !(py_strip x == ""))).Nodup →
        ∀ s ∈ listen_subject_list central listen, py_strip s ≠ "" →
        (((on_settings_updated central listen recorded bus).2.consumers).filter
          (fun c => c.kind == ConsKind.trigger && c.subject == s)).length = 1)
    ∧ on_disconnect recorded = [] := by
  rw [on_settings_consumers central listen recorded bus]
  set ss := listen_subject_list central listen with hss
  set nb := bus.next_name + (ss.filter (fun x => !(py_strip x == ""))).length
    with hnb
  refine ⟨?_, ?_, ?_, rfl⟩
  · intro n hn c hc
    rcases List.mem_append.mp hc with hc1 | hc2
    · rcases List.mem_append.mp hc1 with hpurged | hnew
      · have := List.of_mem_filter hpurged
        simp only [decide_eq_true_iff] at this
        intro he
        exact this (he ▸ hn)
      · have := new_triggers_names ss bus.next_name c hnew
        have hlt := hrec n hn
        omega
    · have hge : bus.next_name ≤ c.name := by
        rcases List.mem_cons.mp hc2 with rfl | hc3
        · simp only []
          omega
        · rcases List.mem_cons.mp hc3 with rfl | hc4
          · simp only []
            omega
          · cases hc4
      have hlt := hrec n hn
      omega
  · intro s
    constructor
    · rintro ⟨c, hc, hk, hsub⟩
      rcases List.mem_append.mp hc with hc1 | hc2
      · rcases List.mem_append.mp hc1 with hpurged | hnew
        · have hnotin := List.of_mem_filter hpurged
          simp only [decide_eq_true_iff] at hnotin
          have hmem := List.mem_of_mem_filter hpurged
          exact absurd (htrig c hmem hk) hnotin
        · have : c.subject ∈ (new_triggers ss bus.next_name).map
              ServerConsumer.subject := List.mem_map_of_mem _ hnew
          rw [new_triggers_map_subject] at this
          rw [hsub] at this
          have h1 := List.mem_of_mem_filter this
          have h2 := List.of_mem_filter this
          refine ⟨h1, ?_⟩
          intro hblank
          rw [hblank] at h2
          simp at h2
      · rcases List.mem_cons.mp hc2 with rfl | hc3
        · cases hk
        · rcases List.mem_cons.mp hc3 with rfl | hc4
          · cases hk
          · cases hc4
    · rintro ⟨hmem, hblank⟩
      have hf : s ∈ ss.filter (fun x => !(py_strip x == "")) :=
        List.mem_filter.mpr ⟨hmem, by simp [hblank]⟩
      rw [← new_triggers_map_subject ss bus.next_name] at hf
      rcases List.mem_map.mp hf with ⟨c, hcmem, hcsub⟩
      refine ⟨c, ?_, new_triggers_kind ss bus.next_name c hcmem, hcsub⟩
      exact List.mem_append.mpr (Or.inl (List.mem_append.mpr (Or.inr hcmem)))
  · intro hnd s hmem hblank
    rw [List.filter_append, List.filter_append, List.length_append,
      List.length_append]
    have hpz : ((bus.consumers.filter
        (fun c => decide (c.name ∉ recorded))).filter
          (fun c => c.kind == ConsKind.trigger && c.subject == s)).length
        = 0 := by
      rw [List.length_eq_zero]
      rw [List.filter_eq_nil_iff]
      intro c hc
      have hnotin := List.of_mem_filter hc
      simp only [decide_eq_true_iff] at hnotin
      have hcm := List.mem_of_mem_filter hc
      simp only [Bool.and_eq_true, beq_iff_eq]
      rintro ⟨hk, _⟩
      exact hnotin (htrig c hcm hk)
    have hoz : (([⟨nb, central, ConsKind.ota⟩,
        ⟨nb + 1, central, ConsKind.reboot⟩] :
          List ServerConsumer).filter
          (fun c => c.kind == ConsKind.trigger && c.subject == s)).length
        = 0 := by
      simp
    rw [hpz, hoz, new_triggers_count]
    have hcnt : ((ss.filter (fun x => !(py_strip x == ""))).filter
        (fun x => x == s)).length
        = (ss.filter (fun x => !(py_strip x == ""))).count s := by
      rw [List.count]
      rw [List.countP_eq_length_filter]
    rw [hcnt]
    have hsmem : s ∈ ss.filter (fun x => !(py_strip x == "")) :=
      List.mem_filter.mpr ⟨hmem, by simp [hblank]⟩
    rw [List.count_eq_one_of_mem hnd hsmem]

/-- C4 counterexample: with `listen_subjects = "a a"` the source creates
two trigger consumers filtering subject "a" — not "exactly one consumer
per subject in {central} ∪ split(listen_subjects)" as claimed (duplicate
or central-overlapping entries are not deduplicated). -/
theorem c4_counterexample :
    ((on_settings_updated "central.x" (some "a a") []
      ⟨[], 0⟩).2.consumers.filter
        (fun c => c.kind == ConsKind.trigger && c.subject == "a")).length
      = 2 := by decide

/-- C4 witness: a device with one stale recorded consumer and
`listen_subjects = "a b"` ends up with exactly one trigger consumer on
subject "a". -/
theorem c4_witness :
    ((on_settings_updated "c" (some "a b") [0]
      ⟨[⟨0, "old", ConsKind.trigger⟩], 1⟩).2.consumers.filter
        (fun c => c.kind == ConsKind.trigger && c.subject == "a")).length
      = 1 := by
  have h := (c4_consumer_lifecycle "c" (some "a b") [0]
    ⟨[⟨0, "old", ConsKind.trigger⟩], 1⟩
    (by decide) (by decide)).2.2
  exact h.1 (by decide) "a" (by decide) (by decide)

/-- An asynchronous interrupt request never changes the selected device. -/
theorem apply_request_active (sched : Nat → Bool) (s : Nat) (st : RoboSt) :
    (apply_request sched s st).active_device = st.active_device := by
  unfold apply_request robotics_interrupt
  split_ifs <;> rfl

/-- An asynchronous interrupt request never changes the step counter. -/
theorem apply_request_step (sched : Nat → Bool) (s : Nat) (st : RoboSt) :
    (apply_request sched s st).step = st.step := by
  unfold apply_request robotics_interrupt
  split_ifs <;> rfl

/-- An asynchronous interrupt request never changes the allow flag. -/
theorem apply_request_allow (sched : Nat → Bool) (s : Nat) (st : RoboSt) :
    (apply_request sched s st).allow_int_flag = st.allow_int_flag := by
  unfold apply_request robotics_interrupt
  split_ifs <;> rfl

/-- When the current operation forbids interrupts, an `interrupt()` request
is rejected and the state is untouched. -/
theorem apply_request_quiet (sched : Nat → Bool) (s : Nat) (st : RoboSt)
    (h : st.allow_int_flag = false) :
    apply_request sched s st = st := by
  unfold apply_request robotics_interrupt
  split_ifs with h1 h2
  · exact absurd h2.2 (by simp [h])
  · rfl
  · rfl

/-- When the current operation forbids interrupts, the `interrupted` flag
survives an `interrupt()` request unchanged. -/
theorem apply_request_interrupted (sched : Nat → Bool) (s : Nat)
    (st : RoboSt) (h : st.allow_int_flag = false) :
    (apply_request sched s st).interrupted = st.interrupted := by
  rw [apply_request_quiet sched s st h]

/-- Driver calls of a concatenated trace. -/
theorem driver_calls_append (a b : List REv) :
    driver_calls (a ++ b) = driver_calls a ++ driver_calls b := by
  unfold driver_calls
  exact List.filterMap_append a b _

/-- Unfolding of the reverse-pass dispatch loop at a `SEL` control. -/
theorem run_int_go_cons_sel (reg : List String) (sched : Nat → Bool)
    (st : RoboSt) (d : String) (comp : Option String) (rest : List RCtrl) :
    run_int_go reg sched st (RCtrl.sel d comp :: rest)
      = if d ∈ reg then
          (match run_int_go reg sched (apply_request sched st.step
              { st with step := st.step + 1, active_device := some d }) rest
           with
           | .error e => .error e
           | .ok (st4, rest_evs) =>
             .ok (st4, [REv.select_component d comp] ++ rest_evs))
        else .error .badRequest := by
  rw [run_int_go]
  simp only [select_device]
  by_cases hd : d ∈ reg
  · rw [if_pos hd, if_pos hd]
  · rw [if_neg hd, if_neg hd]

/-- Unfolding of the reverse-pass dispatch loop at a `WAIT` control. -/
theorem run_int_go_cons_wait (reg : List String) (sched : Nat → Bool)
    (st : RoboSt) (ms : Nat) (i : Bool) (rest : List RCtrl) :
    run_int_go reg sched st (RCtrl.wait ms i :: rest)
      = (match run_int_go reg sched (apply_request sched st.step
            { st with step := st.step + 1 }) rest with
         | .error e => .error e
         | .ok (st4, rest_evs) => .ok (st4, [REv.sleep ms] ++ rest_evs)) := by
  rw [run_int_go]

/-- The reverse-pass dispatch loop fails on a tangible control with no
selected device. -/
theorem run_int_go_cons_tang_none (reg : List String) (sched : Nat → Bool)
    (st : RoboSt) (id : Nat) (i : Bool) (rest : List RCtrl)
    (hact : st.active_device = none) :
    run_int_go reg sched st (RCtrl.tang id i :: rest)
      = .error .badRequest := by
  rw [run_int_go]
  rw [hact]

/-- Unfolding of the reverse-pass dispatch loop at a tangible control with a
selected device. -/
theorem run_int_go_cons_tang_some (reg : List String) (sched : Nat → Bool)
    (st : RoboSt) (id : Nat) (i : Bool) (rest : List RCtrl) (d : String)
    (hact : st.active_device = some d) :
    run_int_go reg sched st (RCtrl.tang id i :: rest)
      = (match run_int_go reg sched (apply_request sched st.step
            { st with step := st.step + 1, active_device := some d }) rest
         with
         | .error e => .error e
         | .ok (st4, rest_evs) =>
           .ok (st4, [REv.dev_execute d id true] ++ rest_evs)) := by
  rw [run_int_go]
  rw [hact]

/-- The reverse-pass dispatch loop executes every control in order with
reverse mode against the rolling selection, advances the step counter once
per control, never touches the allow flag, and — when interrupts are
disallowed on entry — never sets `interrupted`. -/
theorem run_int_go_spec (cs : List RCtrl) :
    ∀ (reg : List String) (sched : Nat → Bool) (st st' : RoboSt)
      (evs : List REv),
    run_int_go reg sched st cs = .ok (st', evs) →
    driver_calls evs = plain_calls true st.active_device cs
    ∧ st'.step = st.step + cs.length
    ∧ st'.allow_int_flag = st.allow_int_flag
    ∧ (st.allow_int_flag = false → st'.interrupted = st.interrupted) := by
  induction cs with
  | nil =>
    intro reg sched st st' evs h
    rw [run_int_go] at h
    cases h
    simp [driver_calls, plain_calls]
  | cons c rest ih =>
    intro reg sched st st' evs h
    cases c with
    | sel d comp =>
      rw [run_int_go_cons_sel] at h
      by_cases hd : d ∈ reg
      · rw [if_pos hd] at h
        cases hgo : run_int_go reg sched (apply_request sched st.step
            { st with step := st.step + 1, active_device := some d }) rest with
        | error e =>
          rw [hgo] at h
          cases h
        | ok p =>
          obtain ⟨st4, rest_evs⟩ := p
          rw [hgo] at h
          cases h
          obtain ⟨h1, h2, h3, h4⟩ := ih reg sched _ _ _ hgo
          rw [apply_request_active] at h1
          rw [apply_request_step] at h2
          rw [apply_request_allow] at h3
          refine ⟨?_, ?_, ?_, ?_⟩
          · rw [driver_calls_append, h1]
            simp [driver_calls, plain_calls]
          · simp only [h2, List.length_cons]
            omega
          · exact h3
          · intro hal
            have := h4 (by rw [apply_request_allow]; exact hal)
            rw [this]
            exact apply_request_interrupted _ _ _ hal
      · rw [if_neg hd] at h
        cases h
    | wait ms i =>
      rw [run_int_go_cons_wait] at h
      cases hgo : run_int_go reg sched (apply_request sched st.step
          { st with step := st.step + 1 }) rest with
      | error e =>
        rw [hgo] at h
        cases h
      | ok p =>
        obtain ⟨st4, rest_evs⟩ := p
        rw [hgo] at h
        cases h
        obtain ⟨h1, h2, h3, h4⟩ := ih reg sched _ _ _ hgo
        rw [apply_request_active] at h1
        rw [apply_request_step] at h2
        rw [apply_request_allow] at h3
        refine ⟨?_, ?_, ?_, ?_⟩
        · rw [driver_calls_append, h1]
          simp [driver_calls, plain_calls]
        · simp only [h2, List.length_cons]
          omega
        · exact h3
        · intro hal
          have := h4 (by rw [apply_request_allow]; exact hal)
          rw [this]
          exact apply_request_interrupted _ _ _ hal
    | tang id i =>
      cases hact : st.active_device with
      | none =>
        rw [run_int_go_cons_tang_none reg sched st id i rest hact] at h
        cases h
      | some d =>
        rw [run_int_go_cons_tang_some reg sched st id i rest d hact] at h
        cases hgo : run_int_go reg sched (apply_request sched st.step
            { st with step := st.step + 1, active_device := some d }) rest with
        | error e =>
          rw [hgo] at h
          cases h
        | ok p =>
          obtain ⟨st4, rest_evs⟩ := p
          rw [hgo] at h
          cases h
          obtain ⟨h1, h2, h3, h4⟩ := ih reg sched _ _ _ hgo
          rw [apply_request_active] at h1
          rw [apply_request_step] at h2
          rw [apply_request_allow] at h3
          refine ⟨?_, ?_, ?_, ?_⟩
          · rw [driver_calls_append, h1]
            simp [driver_calls, plain_calls, hact, List.filterMap_cons]
          · simp only [h2, List.length_cons]
            omega
          · exact h3
          · intro hal
            have := h4 (by rw [apply_request_allow]; exact hal)
            rw [this]
            exact apply_request_interrupted _ _ _ hal

/-- One-step unfolding of the main `run_list` loop. -/
theorem run_loop_succ (fuel : Nat) (reg : List String) (sched : Nat → Bool)
    (st : RoboSt) (int_chain : List RCtrl) (last_sel : Option RCtrl)
    (c : RCtrl) (rest : List RCtrl) :
    run_loop (Nat.succ fuel) reg sched st int_chain last_sel (c :: rest)
      = match disp_result reg
          { st with allow_int_flag := c.allow_interrupt,
                    step := st.step + 1 } c with
        | .error e => .error e
        | .ok (st2, evs) =>
          let st3 := apply_request sched st.step st2
          if st3.interrupted then
            match run_int_list reg sched (reset_state st3)
                (chain_step int_chain last_sel c) with
            | .error e => .error e
            | .ok (st5, rev_evs) =>
              match run_loop fuel reg sched
                  (ready_devices (reset_state st5)).1 [] none
                  (chain_step int_chain last_sel c) with
              | .error e => .error e
              | .ok (st8, fwd_evs) =>
                match run_loop fuel reg sched st8
                    (chain_step int_chain last_sel c)
                    (lsel_step last_sel c) rest with
                | .error e => .error e
                | .ok (st9, rest_evs) =>
                  .ok (st9, evs ++ REv.log_reversing :: rev_evs
                    ++ REv.log_replaying
                      :: (ready_devices (reset_state st5)).2 ++ fwd_evs
                    ++ REv.log_int_done :: rest_evs)
          else
            match run_loop fuel reg sched st3
                (chain_step int_chain last_sel c)
                (lsel_step last_sel c) rest with
            | .error e => .error e
            | .ok (st4, rest_evs) => .ok (st4, evs ++ rest_evs) := by
  cases c with
  | sel d comp =>
    rw [run_loop.eq_def]
    simp only [RCtrl.allow_interrupt, disp_result, chain_step, lsel_step,
      RCtrl.isSel, if_true]
    cases hs : select_device reg
        { st with allow_int_flag := true, step := st.step + 1 } d comp with
    | error e => rfl
    | ok r => obtain ⟨stS, evsS⟩ := r; rfl
  | wait ms i =>
    cases i with
    | false =>
      rw [run_loop.eq_def]
      simp only [RCtrl.allow_interrupt, disp_result, chain_step, lsel_step,
        RCtrl.isSel, Bool.false_eq_true, if_false]
    | true =>
      rw [run_loop.eq_def]
      simp only [RCtrl.allow_interrupt, disp_result, chain_step, lsel_step,
        RCtrl.isSel, Bool.false_eq_true, if_false, if_true]
  | tang id i =>
    cases i with
    | false =>
      rw [run_loop.eq_def]
      simp only [RCtrl.allow_interrupt, disp_result, chain_step, lsel_step,
        RCtrl.isSel, Bool.false_eq_true, if_false]
      rw [show ({ st with allow_int_flag := false, step := st.step + 1 }
        : RoboSt).active_device = st.active_device from rfl]
      cases hact : st.active_device with
      | none => rfl
      | some d => rfl
    | true =>
      rw [run_loop.eq_def]
      simp only [RCtrl.allow_interrupt, disp_result, chain_step, lsel_step,
        RCtrl.isSel, Bool.false_eq_true, if_false, if_true]
      rw [show ({ st with allow_int_flag := true, step := st.step + 1 }
        : RoboSt).active_device = st.active_device from rfl]
      cases hact : st.active_device with
      | none => rfl
      | some d => rfl

/-- A step at which no `interrupt()` request arrives leaves the state
untouched. -/
theorem apply_request_none (sched : Nat → Bool) (s : Nat) (st : RoboSt)
    (h : sched s = false) : apply_request sched s st = st := by
  simp [apply_request, h]

/-- An `interrupt()` request arriving while a device is selected and the
current operation allows interrupts sets the `interrupted` flag. -/
theorem apply_request_fire (sched : Nat → Bool) (s : Nat) (st : RoboSt)
    (hs : sched s = true) (ha : st.active_device.isSome = true)
    (hf : st.allow_int_flag = true) :
    apply_request sched s st = { st with interrupted := true } := by
  simp [apply_request, robotics_interrupt, hs, ha, hf]

/-- The main loop with no controls left returns immediately. -/
theorem run_loop_nil (fuel : Nat) (reg : List String) (sched : Nat → Bool)
    (st : RoboSt) (int_chain : List RCtrl) (last_sel : Option RCtrl) :
    run_loop fuel reg sched st int_chain last_sel [] = .ok (st, []) := by
  cases fuel <;> rfl

/-- Powering up changes none of the selection, interrupt or step fields. -/
theorem ready_devices_step (st : RoboSt) :
    (ready_devices st).1.step = st.step
    ∧ (ready_devices st).1.interrupted = st.interrupted
    ∧ (ready_devices st).1.active_device = st.active_device := by
  unfold ready_devices
  split_ifs <;> exact ⟨rfl, rfl, rfl⟩

/-- Powering up performs no driver `execute` call. -/
theorem ready_devices_calls (st : RoboSt) :
    driver_calls (ready_devices st).2 = [] := by
  unfold ready_devices
  split_ifs <;> rfl

/-- A successful forward dispatch of one control: its driver calls are those
of the reference straight-line semantics, `SEL` retargets the selection, and
the step, interrupt and power fields pass through. -/
theorem disp_result_spec (reg : List String) (st1 st2 : RoboSt) (c : RCtrl)
    (evs : List REv) (h : disp_result reg st1 c = .ok (st2, evs)) :
    driver_calls evs = plain_calls false st1.active_device [c]
    ∧ st2.active_device = active_after st1.active_device [c]
    ∧ st2.step = st1.step
    ∧ st2.interrupted = st1.interrupted
    ∧ st2.allow_int_flag = st1.allow_int_flag
    ∧ st2.powered = st1.powered := by
  cases c with
  | sel d comp =>
    simp only [disp_result, select_device] at h
    split_ifs at h with hd
    cases h
    exact ⟨rfl, rfl, rfl, rfl, rfl, rfl⟩
  | wait ms i =>
    simp only [disp_result] at h
    cases h
    exact ⟨rfl, rfl, rfl, rfl, rfl, rfl⟩
  | tang id i =>
    simp only [disp_result] at h
    cases hact : st1.active_device with
    | none => rw [hact] at h; cases h
    | some d =>
      rw [hact] at h
      cases h
      refine ⟨?_, ?_, rfl, rfl, rfl, rfl⟩
      · simp [driver_calls, plain_calls, hact]
      · rw [hact]; rfl

/-- Straight-line driver calls of a concatenated program: the second part
runs against the selection left by the first. -/
theorem plain_calls_append (r : Bool) (xs : List RCtrl) :
    ∀ (dev : Option String) (ys : List RCtrl),
    plain_calls r dev (xs ++ ys)
      = plain_calls r dev xs ++ plain_calls r (active_after dev xs) ys := by
  induction xs with
  | nil => intro dev ys; rfl
  | cons c rest ih =>
    intro dev ys
    cases c with
    | sel d comp => exact ih (some d) ys
    | wait ms i => exact ih dev ys
    | tang id i =>
      show (match dev with | some d => [(d, id, r)] | none => [])
          ++ plain_calls r dev (rest ++ ys) = _
      rw [ih dev ys]
      rw [← List.append_assoc]
      rfl

/-- Selection tracking composes over a leading control. -/
theorem active_after_cons (dev : Option String) (c : RCtrl)
    (rest : List RCtrl) :
    active_after (active_after dev [c]) rest = active_after dev (c :: rest) := by
  cases c <;> rfl

/-- Source `run_int_list` behaviour on success: the driver calls of the
trace are the straight-line reverse execution of the prepared chain, the
step counter advances once per prepared control, the allow flag is
preserved, and with interrupts disallowed on entry the `interrupted` flag is
preserved. -/
theorem run_int_list_spec (reg : List String) (sched : Nat → Bool)
    (st st' : RoboSt) (cs : List RCtrl) (evs : List REv)
    (h : run_int_list reg sched st cs = .ok (st', evs)) :
    driver_calls evs = plain_calls true st.active_device (prepare_int_list cs).1
    ∧ st'.step = st.step + (prepare_int_list cs).1.length
    ∧ st'.allow_int_flag = st.allow_int_flag
    ∧ (st.allow_int_flag = false → st'.interrupted = st.interrupted) := by
  simp only [run_int_list] at h
  cases hgo : run_int_go reg sched st (prepare_int_list cs).1 with
  | error e => rw [hgo] at h; cases h
  | ok p =>
    obtain ⟨stg, gevs⟩ := p
    rw [hgo] at h
    cases h
    obtain ⟨h1, h2, h3, h4⟩ := run_int_go_spec _ _ _ _ _ _ hgo
    refine ⟨?_, h2, h3, h4⟩
    rw [driver_calls_append]
    have hw : driver_calls
        (if (prepare_int_list cs).2 then [REv.log_no_sel] else []) = [] := by
      split_ifs <;> rfl
    rw [hw, h1, List.nil_append]

/-- The main loop propagates a dispatch failure. -/
theorem run_loop_succ_err (fuel : Nat) (reg : List String) (sched : Nat → Bool)
    (st : RoboSt) (int_chain : List RCtrl) (last_sel : Option RCtrl)
    (c : RCtrl) (rest : List RCtrl) (e : RErr)
    (hd : disp_result reg
      { st with allow_int_flag := c.allow_interrupt, step := st.step + 1 } c
      = .error e) :
    run_loop (Nat.succ fuel) reg sched st int_chain last_sel (c :: rest)
      = .error e := by
  rw [run_loop_succ, hd]

/-- One-step unfolding of the main loop after a successful dispatch, split
on whether an interrupt was accepted during the control. -/
theorem run_loop_succ_ok (fuel : Nat) (reg : List String) (sched : Nat → Bool)
    (st : RoboSt) (int_chain : List RCtrl) (last_sel : Option RCtrl)
    (c : RCtrl) (rest : List RCtrl) (st2 : RoboSt) (evs2 : List REv)
    (hd : disp_result reg
      { st with allow_int_flag := c.allow_interrupt, step := st.step + 1 } c
      = .ok (st2, evs2)) :
    run_loop (Nat.succ fuel) reg sched st int_chain last_sel (c :: rest)
      = if (apply_request sched st.step st2).interrupted = true then
          match run_int_list reg sched
              (reset_state (apply_request sched st.step st2))
              (chain_step int_chain last_sel c) with
          | .error e => .error e
          | .ok (st5, rev_evs) =>
            match run_loop fuel reg sched
                (ready_devices (reset_state st5)).1 [] none
                (chain_step int_chain last_sel c) with
            | .error e => .error e
            | .ok (st8, fwd_evs) =>
              match run_loop fuel reg sched st8
                  (chain_step int_chain last_sel c)
                  (lsel_step last_sel c) rest with
              | .error e => .error e
              | .ok (st9, rest_evs) =>
                .ok (st9, evs2 ++ REv.log_reversing :: rev_evs
                  ++ REv.log_replaying
                    :: (ready_devices (reset_state st5)).2 ++ fwd_evs
                  ++ REv.log_int_done :: rest_evs)
        else
          match run_loop fuel reg sched (apply_request sched st.step st2)
              (chain_step int_chain last_sel c)
              (lsel_step last_sel c) rest with
          | .error e => .error e
          | .ok (st4, rest_evs) => .ok (st4, evs2 ++ rest_evs) := by
  rw [run_loop_succ, hd]

/-- With no pending `interrupt()` request ever arriving, the main loop is
exactly the straight-line forward execution: the driver calls of the trace
are `plain_calls` of the remaining program, `interrupted` stays false, the
step counter grows, and the final selection is `active_after`. -/
theorem run_loop_no_int (fuel : Nat) :
    ∀ (reg : List String) (sched : Nat → Bool) (st st' : RoboSt)
      (int_chain : List RCtrl) (last_sel : Option RCtrl) (cs : List RCtrl)
      (evs : List REv),
    run_loop fuel reg sched st int_chain last_sel cs = .ok (st', evs) →
    st.interrupted = false →
    (∀ s, st.step ≤ s → sched s = false) →
    driver_calls evs = plain_calls false st.active_device cs
    ∧ st'.interrupted = false
    ∧ st.step ≤ st'.step
    ∧ st'.active_device = active_after st.active_device cs := by
  induction fuel with
  | zero =>
    intro reg sched st st' int_chain last_sel cs evs h hint hsched
    cases cs with
    | nil =>
      rw [run_loop_nil] at h
      cases h
      exact ⟨rfl, hint, le_rfl, rfl⟩
    | cons c rest => exact Except.noConfusion h
  | succ fuel ih =>
    intro reg sched st st' int_chain last_sel cs evs h hint hsched
    cases cs with
    | nil =>
      rw [run_loop_nil] at h
      cases h
      exact ⟨rfl, hint, le_rfl, rfl⟩
    | cons c rest =>
      cases hd : disp_result reg
          { st with allow_int_flag := c.allow_interrupt, step := st.step + 1 }
          c with
      | error e =>
        rw [run_loop_succ_err fuel reg sched st int_chain last_sel c rest e hd]
          at h
        cases h
      | ok p =>
        obtain ⟨st2, evs2⟩ := p
        rw [run_loop_succ_ok fuel reg sched st int_chain last_sel c rest
          st2 evs2 hd] at h
        obtain ⟨hd1, hd2, hd3, hd4, hd5, hd6⟩ := disp_result_spec _ _ _ _ _ hd
        have hd1' : driver_calls evs2
            = plain_calls false st.active_device [c] := hd1
        have hd2' : st2.active_device
            = active_after st.active_device [c] := hd2
        have hd3' : st2.step = st.step + 1 := hd3
        have hd4' : st2.interrupted = st.interrupted := hd4
        rw [apply_request_none _ _ _ (hsched st.step le_rfl)] at h
        rw [hd4', hint] at h
        simp only [Bool.false_eq_true, if_false] at h
        cases hr : run_loop fuel reg sched st2 (chain_step int_chain last_sel c)
            (lsel_step last_sel c) rest with
        | error e => rw [hr] at h; cases h
        | ok q =>
          obtain ⟨st4, rest_evs⟩ := q
          rw [hr] at h
          cases h
          obtain ⟨g1, g2, g3, g4⟩ := ih _ _ _ _ _ _ _ _ hr
            (by rw [hd4', hint])
            (fun s hs => hsched s (by rw [hd3'] at hs; omega))
          refine ⟨?_, g2, ?_, ?_⟩
          · rw [driver_calls_append, g1, hd1', hd2', ← plain_calls_append,
              List.singleton_append]
          · rw [hd3'] at g3; omega
          · rw [g4, hd2', active_after_cons]

/-- Log events contribute no driver call. -/
theorem driver_calls_rev_log (l : List REv) :
    driver_calls (REv.log_reversing :: l) = driver_calls l := rfl

/-- Log events contribute no driver call (replay marker). -/
theorem driver_calls_rep_log (l : List REv) :
    driver_calls (REv.log_replaying :: l) = driver_calls l := rfl

/-- Log events contribute no driver call (completion marker). -/
theorem driver_calls_done_log (l : List REv) :
    driver_calls (REv.log_int_done :: l) = driver_calls l := rfl

/-- The central interrupt theorem: if exactly one `interrupt()` request
arrives, during the control at index `k` (which allows interrupts and has a
device selected), then the driver calls of the trace decompose as: the
forward run up to and including control `k`; the prepared rolling chain
executed in reverse mode from a cleared selection; the entire rolling chain
— including its last, partially executed element — replayed forward; and
the remaining controls executed forward from the selection the replay left. -/
theorem run_loop_single_interrupt (k : Nat) :
    ∀ (fuel : Nat) (reg : List String) (sched : Nat → Bool) (st st' : RoboSt)
      (int_chain : List RCtrl) (last_sel : Option RCtrl) (cs : List RCtrl)
      (evs : List REv),
    run_loop fuel reg sched st int_chain last_sel cs = .ok (st', evs) →
    (∀ s, sched s = true ↔ s = st.step + k) →
    st.interrupted = false →
    k < cs.length →
    (cs.getD k (RCtrl.wait 0 false)).allow_interrupt = true →
    (active_after st.active_device (cs.take (k+1))).isSome = true →
    driver_calls evs
      = plain_calls false st.active_device (cs.take (k+1))
        ++ plain_calls true none
          (prepare_int_list
            (chain_fold (int_chain, last_sel) (cs.take (k+1))).1).1
        ++ plain_calls false none
          (chain_fold (int_chain, last_sel) (cs.take (k+1))).1
        ++ plain_calls false
          (active_after none (chain_fold (int_chain, last_sel) (cs.take (k+1))).1)
          (cs.drop (k+1)) := by
  induction k with
  | zero =>
    intro fuel reg sched st st' int_chain last_sel cs evs h hsched hint hklen
      hallow hsome
    cases cs with
    | nil => exact absurd hklen (by simp)
    | cons c rest =>
    cases fuel with
    | zero => exact Except.noConfusion h
    | succ fuel =>
    cases hd : disp_result reg
        { st with allow_int_flag := c.allow_interrupt, step := st.step + 1 }
        c with
    | error e =>
      rw [run_loop_succ_err fuel reg sched st int_chain last_sel c rest e hd]
        at h
      cases h
    | ok p =>
    obtain ⟨st2, evs2⟩ := p
    rw [run_loop_succ_ok fuel reg sched st int_chain last_sel c rest
      st2 evs2 hd] at h
    obtain ⟨hd1, hd2, hd3, hd4, hd5, hd6⟩ := disp_result_spec _ _ _ _ _ hd
    have hd1' : driver_calls evs2
        = plain_calls false st.active_device [c] := hd1
    have hd2' : st2.active_device
        = active_after st.active_device [c] := hd2
    have hd3' : st2.step = st.step + 1 := hd3
    have hall2 : st2.allow_int_flag = true := by
      rw [hd5]
      exact hallow
    have hact2 : st2.active_device.isSome = true := by
      rw [hd2']
      exact hsome
    have hfire : sched st.step = true := (hsched st.step).mpr (by omega)
    rw [apply_request_fire sched st.step st2 hfire hact2 hall2] at h
    rw [if_pos (show ({ st2 with interrupted := true }
      : RoboSt).interrupted = true from rfl)] at h
    cases hri : run_int_list reg sched
        (reset_state { st2 with interrupted := true })
        (chain_step int_chain last_sel c) with
    | error e => rw [hri] at h; cases h
    | ok q =>
    obtain ⟨st5, rev_evs⟩ := q
    rw [hri] at h
    simp only [] at h
    obtain ⟨hri1, hri2, hri3, hri4⟩ := run_int_list_spec _ _ _ _ _ _ hri
    have hri1' : driver_calls rev_evs = plain_calls true none
        (prepare_int_list (chain_step int_chain last_sel c)).1 := hri1
    have hri2' : st5.step = st2.step
        + (prepare_int_list (chain_step int_chain last_sel c)).1.length := hri2
    have hri3' : st5.allow_int_flag = false := hri3
    cases hfw : run_loop fuel reg sched
        (ready_devices (reset_state st5)).1 [] none
        (chain_step int_chain last_sel c) with
    | error e => rw [hfw] at h; cases h
    | ok q2 =>
    obtain ⟨st8, fwd_evs⟩ := q2
    rw [hfw] at h
    simp only [] at h
    have hnos : ∀ s, (ready_devices (reset_state st5)).1.step ≤ s →
        sched s = false := by
      intro s hs
      rw [(ready_devices_step (reset_state st5)).1] at hs
      have hs' : st5.step ≤ s := hs
      rw [hri2', hd3'] at hs'
      refine Bool.eq_false_iff.mpr (fun ht => ?_)
      have := (hsched s).mp ht
      omega
    have hrdint : (ready_devices (reset_state st5)).1.interrupted = false := by
      rw [(ready_devices_step (reset_state st5)).2.1]
      rfl
    obtain ⟨hfw1, hfw2, hfw3, hfw4⟩ :=
      run_loop_no_int fuel _ _ _ _ _ _ _ _ hfw hrdint hnos
    rw [(ready_devices_step (reset_state st5)).2.2] at hfw1 hfw4
    have hresetact : (reset_state st5).active_device = none := rfl
    rw [hresetact] at hfw1 hfw4
    cases hcont : run_loop fuel reg sched st8
        (chain_step int_chain last_sel c) (lsel_step last_sel c) rest with
    | error e => rw [hcont] at h; cases h
    | ok q3 =>
    obtain ⟨st9, rest_evs⟩ := q3
    rw [hcont] at h
    cases h
    have hnos2 : ∀ s, st8.step ≤ s → sched s = false := by
      intro s hs
      refine Bool.eq_false_iff.mpr (fun ht => ?_)
      have heq := (hsched s).mp ht
      have h8 := hfw3
      rw [(ready_devices_step (reset_state st5)).1] at h8
      have h8' : st5.step ≤ st8.step := h8
      rw [hri2', hd3'] at h8'
      omega
    obtain ⟨hc1, hc2, hc3, hc4⟩ :=
      run_loop_no_int fuel _ _ _ _ _ _ _ _ hcont hfw2 hnos2
    rw [hfw4] at hc1
    show driver_calls _
      = plain_calls false st.active_device [c]
        ++ plain_calls true none
          (prepare_int_list (chain_step int_chain last_sel c)).1
        ++ plain_calls false none (chain_step int_chain last_sel c)
        ++ plain_calls false
          (active_after none (chain_step int_chain last_sel c)) rest
    simp only [driver_calls_append, driver_calls_rev_log,
      driver_calls_rep_log, driver_calls_done_log, ready_devices_calls,
      List.nil_append, List.append_assoc]
    rw [hd1', hri1', hfw1, hc1]
  | succ k ih =>
    intro fuel reg sched st st' int_chain last_sel cs evs h hsched hint hklen
      hallow hsome
    cases cs with
    | nil => exact absurd hklen (by simp)
    | cons c rest =>
    cases fuel with
    | zero => exact Except.noConfusion h
    | succ fuel =>
    cases hd : disp_result reg
        { st with allow_int_flag := c.allow_interrupt, step := st.step + 1 }
        c with
    | error e =>
      rw [run_loop_succ_err fuel reg sched st int_chain last_sel c rest e hd]
        at h
      cases h
    | ok p =>
    obtain ⟨st2, evs2⟩ := p
    rw [run_loop_succ_ok fuel reg sched st int_chain last_sel c rest
      st2 evs2 hd] at h
    obtain ⟨hd1, hd2, hd3, hd4, hd5, hd6⟩ := disp_result_spec _ _ _ _ _ hd
    have hd1' : driver_calls evs2
        = plain_calls false st.active_device [c] := hd1
    have hd2' : st2.active_device
        = active_after st.active_device [c] := hd2
    have hd3' : st2.step = st.step + 1 := hd3
    have hd4' : st2.interrupted = st.interrupted := hd4
    have hq : sched st.step = false :=
      Bool.eq_false_iff.mpr (fun ht => by
        have := (hsched st.step).mp ht
        omega)
    rw [apply_request_none _ _ _ hq] at h
    rw [hd4', hint] at h
    simp only [Bool.false_eq_true, if_false] at h
    cases hr : run_loop fuel reg sched st2 (chain_step int_chain last_sel c)
        (lsel_step last_sel c) rest with
    | error e => rw [hr] at h; cases h
    | ok q =>
    obtain ⟨st4, rest_evs⟩ := q
    rw [hr] at h
    cases h
    have hsched' : ∀ s, sched s = true ↔ s = st2.step + k := by
      intro s
      rw [hd3']
      exact (hsched s).trans (by omega)
    have hint2 : st2.interrupted = false := by rw [hd4', hint]
    have hklen' : k < rest.length := by
      rw [List.length_cons] at hklen
      omega
    have hallow' : (rest.getD k (RCtrl.wait 0 false)).allow_interrupt
        = true := hallow
    have hsome' : (active_after st2.active_device (rest.take (k+1))).isSome
        = true := by
      rw [hd2', active_after_cons]
      exact hsome
    have gg := ih fuel reg sched st2 st' (chain_step int_chain last_sel c)
      (lsel_step last_sel c) rest rest_evs hr hsched' hint2 hklen' hallow'
      hsome'
    show driver_calls _
      = plain_calls false st.active_device (c :: rest.take (k+1))
        ++ plain_calls true none
          (prepare_int_list
            (chain_fold (chain_step int_chain last_sel c, lsel_step last_sel c)
              (rest.take (k+1))).1).1
        ++ plain_calls false none
          (chain_fold (chain_step int_chain last_sel c, lsel_step last_sel c)
            (rest.take (k+1))).1
        ++ plain_calls false
          (active_after none
            (chain_fold (chain_step int_chain last_sel c, lsel_step last_sel c)
              (rest.take (k+1))).1)
          (rest.drop (k+1))
    rw [driver_calls_append, hd1', gg, hd2']
    rw [show (c :: List.take (k+1) rest) = [c] ++ List.take (k+1) rest
      from rfl]
    rw [plain_calls_append]
    simp only [List.append_assoc]

/-- The rolling-chain fold splits over concatenation. -/
theorem chain_fold_append (xs : List RCtrl) :
    ∀ (p : List RCtrl × Option RCtrl) (ys : List RCtrl),
    chain_fold p (xs ++ ys) = chain_fold (chain_fold p xs) ys := by
  induction xs with
  | nil => intro p ys; rfl
  | cons c rest ih => intro p ys; exact ih _ ys

/-- The last-`SEL` component of the rolling-chain fold. -/
theorem chain_fold_snd (ds : List RCtrl) :
    ∀ (p : List RCtrl × Option RCtrl),
    (chain_fold p ds).2 = last_sel_after p.2 ds := by
  induction ds with
  | nil => intro p; rfl
  | cons c rest ih => intro p; exact ih _

/-- A non-interruptible control resets the rolling chain to just the most
recent `SEL` (empty if none was seen). -/
theorem chain_reset (p : List RCtrl × Option RCtrl) (ds : List RCtrl)
    (c : RCtrl) (hc : c.allow_interrupt = false) :
    (chain_fold p (ds ++ [c])).1
      = match last_sel_after p.2 ds with
        | some s => [s]
        | none => [] := by
  rw [chain_fold_append]
  rw [show (chain_fold (chain_fold p ds) [c]).1
    = if c.allow_interrupt = true then (chain_fold p ds).1 ++ [c]
      else (match (chain_fold p ds).2 with
            | some s => [s]
            | none => []) from rfl]
  rw [hc]
  simp only [Bool.false_eq_true, if_false]
  rw [chain_fold_snd]

/-- The `prepare_int_list` fold over a chain with no `SEL`: the reverse list
stays empty and every tangible accumulates in the buffer. -/
theorem prepare_fold_no_sel (l : List RCtrl) :
    ∀ (acc1 acc2 : List RCtrl), (∀ x ∈ l, x.isSel = false) →
    l.foldl
      (fun (acc : List RCtrl × List RCtrl) ctrl =>
        match ctrl with
        | .sel d c => (acc.1 ++ RCtrl.sel d c :: acc.2, [])
        | .wait _ _ => acc
        | .tang id i => (acc.1, acc.2 ++ [RCtrl.tang id i]))
      (acc1, acc2)
      = (acc1, acc2 ++ l.filter RCtrl.isTang) := by
  induction l with
  | nil => intro acc1 acc2 h; simp
  | cons c rest ih =>
    intro acc1 acc2 h
    cases c with
    | sel d comp =>
      exact absurd (h _ (List.mem_cons_self _ _)) (by simp [RCtrl.isSel])
    | wait ms i =>
      show List.foldl _ (acc1, acc2) rest = _
      rw [ih acc1 acc2 (fun x hx => h x (List.mem_cons_of_mem _ hx))]
      rfl
    | tang id i =>
      show List.foldl _ (acc1, acc2 ++ [RCtrl.tang id i]) rest = _
      rw [ih _ _ (fun x hx => h x (List.mem_cons_of_mem _ hx))]
      rw [List.append_assoc]
      rfl

/-- When no `SEL` precedes the tangibles of the chain, `prepare_int_list`
still returns every tangible (right to left) and flags the warning exactly
when there is at least one tangible. -/
theorem prepare_no_sel (ds : List RCtrl)
    (h : ∀ x ∈ ds.dropLast, x.isSel = false) :
    (prepare_int_list ds).1 = (ds.dropLast.filter RCtrl.isTang).reverse
    ∧ ((prepare_int_list ds).2 = true
        ↔ ds.dropLast.filter RCtrl.isTang ≠ []) := by
  have hfold := prepare_fold_no_sel (ds.dropLast.reverse) [] []
    (fun x hx => h x (List.mem_reverse.mp hx))
  simp only [prepare_int_list, hfold, List.nil_append, List.filter_reverse]
  by_cases hb : (ds.dropLast.filter RCtrl.isTang).reverse.length > 0
  · rw [if_pos hb]
    refine ⟨rfl, ?_⟩
    simp only [true_iff]
    intro hnil
    rw [hnil] at hb
    simp at hb
  · rw [if_neg hb]
    have hnil : (ds.dropLast.filter RCtrl.isTang).reverse = [] := by
      cases hx : (ds.dropLast.filter RCtrl.isTang).reverse with
      | nil => rfl
      | cons a l => rw [hx] at hb; simp at hb
    have hnil2 : ds.dropLast.filter RCtrl.isTang = [] :=
      List.reverse_eq_nil_iff.mp hnil
    rw [hnil]
    simp [hnil2]

/-- C2: for every interrupted robotics program, the driver `execute` calls
after a single interrupt at control `k` are: the forward run up to and
including control `k`, then the prepared interruptible tail (chain minus its
last element and all `WAIT`s, each `SEL` moved before the tangibles that
followed it) executed with reverse mode on, then the ENTIRE rolling chain —
including the partially executed last element, not the prepared tail —
replayed forward with reverse mode off, then the rest of the program.
Moreover a non-interruptible control resets the rolling chain to the most
recent `SEL`, and with no preceding `SEL` the tangibles are still appended
to the reverse list with the warning logged iff any tangible exists. -/
theorem c2_interrupt_replay
    (fuel k : Nat) (reg : List String) (sched : Nat → Bool) (st st' : RoboSt)
    (cs : List RCtrl) (evs : List REv)
    (h : run_list fuel reg sched st cs = .ok (st', evs))
    (hsched : ∀ s, sched s = true ↔ s = st.step + k)
    (hint : st.interrupted = false)
    (hk : k < cs.length)
    (hallow : (cs.getD k (RCtrl.wait 0 false)).allow_interrupt = true)
    (hsome : (active_after st.active_device (cs.take (k+1))).isSome = true) :
    driver_calls evs
      = plain_calls false st.active_device (cs.take (k+1))
        ++ plain_calls true none
          (prepare_int_list (chain_fold ([], none) (cs.take (k+1))).1).1
        ++ plain_calls false none (chain_fold ([], none) (cs.take (k+1))).1
        ++ plain_calls false
          (active_after none (chain_fold ([], none) (cs.take (k+1))).1)
          (cs.drop (k+1))
    ∧ (∀ (p : List RCtrl × Option RCtrl) (ds : List RCtrl) (c : RCtrl),
        c.allow_interrupt = false →
        (chain_fold p (ds ++ [c])).1
          = match last_sel_after p.2 ds with
            | some s => [s]
            | none => [])
    ∧ (∀ ds : List RCtrl, (∀ x ∈ ds.dropLast, x.isSel = false) →
        (prepare_int_list ds).1 = (ds.dropLast.filter RCtrl.isTang).reverse
        ∧ ((prepare_int_list ds).2 = true
            ↔ ds.dropLast.filter RCtrl.isTang ≠ [])) := by
  refine ⟨?_, fun p ds c hc => chain_reset p ds c hc,
    fun ds hds => prepare_no_sel ds hds⟩
  simp only [run_list] at h
  cases hrun : run_loop fuel reg sched (ready_devices st).1 [] none cs with
  | error e => rw [hrun] at h; cases h
  | ok p =>
    obtain ⟨stf, evs0⟩ := p
    rw [hrun] at h
    cases h
    have key := run_loop_single_interrupt k fuel reg sched
      (ready_devices st).1 _ [] none cs _ hrun
      (fun s => by rw [(ready_devices_step st).1]; exact hsched s)
      (by rw [(ready_devices_step st).2.1]; exact hint)
      hk hallow
      (by rw [(ready_devices_step st).2.2]; exact hsome)
    rw [driver_calls_append, ready_devices_calls, List.nil_append, key,
      (ready_devices_step st).2.2]

/-- C2 counterexample: for the program SEL A, TANG 0, TANG 1 interrupted
during its last control, the actual driver calls replay the full chain
forward (ending with executes of 0 and 1), whereas the claimed same tail
executed forward predicts only the prepared tail (execute of 0 alone): the
two sequences differ. -/
theorem c2_counterexample :
    (run_list 50 ["A"] (fun s => s == 2) ⟨none, false, false, true, 0⟩
        [RCtrl.sel "A" none, RCtrl.tang 0 true,
         RCtrl.tang 1 true]).toOption.map (fun r => driver_calls r.2)
      = some [("A", 0, false), ("A", 1, false), ("A", 0, true),
              ("A", 0, false), ("A", 1, false)]
    ∧ plain_calls false (none : Option String)
        ([RCtrl.sel "A" none, RCtrl.tang 0 true, RCtrl.tang 1 true].take 3)
      ++ plain_calls true none
        (prepare_int_list (chain_fold ([], none)
          ([RCtrl.sel "A" none, RCtrl.tang 0 true,
            RCtrl.tang 1 true].take 3)).1).1
      ++ plain_calls false none
        (prepare_int_list (chain_fold ([], none)
          ([RCtrl.sel "A" none, RCtrl.tang 0 true,
            RCtrl.tang 1 true].take 3)).1).1
      ++ plain_calls false
        (active_after none (chain_fold ([], none)
          ([RCtrl.sel "A" none, RCtrl.tang 0 true,
            RCtrl.tang 1 true].take 3)).1)
        ([RCtrl.sel "A" none, RCtrl.tang 0 true, RCtrl.tang 1 true].drop 3)
      = [("A", 0, false), ("A", 1, false), ("A", 0, true), ("A", 0, false)]
    ∧ ([("A", 0, false), ("A", 1, false), ("A", 0, true),
        ("A", 0, false), ("A", 1, false)]
        : List (String × Nat × Bool))
      ≠ [("A", 0, false), ("A", 1, false), ("A", 0, true),
         ("A", 0, false)] := by
  refine ⟨by decide, by decide, by decide⟩

/-- C2 witness: the single-interrupt decomposition evaluated on the concrete
run of SEL A, TANG 0, TANG 1 with the interrupt arriving at global step 2. -/
theorem c2_witness :
    driver_calls [REv.select_component "A" none, REv.dev_execute "A" 0 false,
      REv.dev_execute "A" 1 false, REv.log_reversing,
      REv.select_component "A" none, REv.dev_execute "A" 0 true,
      REv.log_replaying, REv.select_component "A" none,
      REv.dev_execute "A" 0 false, REv.dev_execute "A" 1 false,
      REv.log_int_done]
      = plain_calls false (none : Option String)
          ([RCtrl.sel "A" none, RCtrl.tang 0 true, RCtrl.tang 1 true].take 3)
        ++ plain_calls true none
          (prepare_int_list (chain_fold ([], none)
            ([RCtrl.sel "A" none, RCtrl.tang 0 true,
              RCtrl.tang 1 true].take 3)).1).1
        ++ plain_calls false none
          (chain_fold ([], none)
            ([RCtrl.sel "A" none, RCtrl.tang 0 true,
              RCtrl.tang 1 true].take 3)).1
        ++ plain_calls false
          (active_after none (chain_fold ([], none)
            ([RCtrl.sel "A" none, RCtrl.tang 0 true,
              RCtrl.tang 1 true].take 3)).1)
          ([RCtrl.sel "A" none, RCtrl.tang 0 true,
            RCtrl.tang 1 true].drop 3) := by
  exact (c2_interrupt_replay 50 2 ["A"] (fun s => s == 2)
    ⟨none, false, false, true, 0⟩ ⟨some "A", false, true, true, 8⟩
    [RCtrl.sel "A" none, RCtrl.tang 0 true, RCtrl.tang 1 true]
    [REv.select_component "A" none, REv.dev_execute "A" 0 false,
      REv.dev_execute "A" 1 false, REv.log_reversing,
      REv.select_component "A" none, REv.dev_execute "A" 0 true,
      REv.log_replaying, REv.select_component "A" none,
      REv.dev_execute "A" 0 false, REv.dev_execute "A" 1 false,
      REv.log_int_done]
    (by decide) (fun s => by simp) rfl (by decide) (by decide) (by decide)).1

/-- C3 counterexample: with a second `interrupt()` arriving at global step 7
— while the forward replay of the first interrupt is running — the trace
contains two halt-and-reverse sequences (two reversing logs and two reverse
executions), so the forward replay IS interruptible. -/
theorem c3_counterexample :
    (run_list 50 ["A"] (fun s => s == 2 || s == 7)
        ⟨none, false, false, true, 0⟩
        [RCtrl.sel "A" none, RCtrl.tang 0 true,
         RCtrl.tang 1 true]).toOption.map
        (fun r =>
          ((r.2.filter (fun e => e == REv.log_reversing)).length,
           ((driver_calls r.2).filter
             (fun c => c == ("A", 0, true))).length))
      = some (2, 2) := by decide

/-- C3: the reverse pass started from a reset state (as `run_list` does)
never ends interrupted, whatever `interrupt()` requests arrive:
`reset_state` clears the allow flag and `run_int_list` never sets it, so
every request is rejected. -/
theorem c3_reverse_uninterruptible (reg : List String) (sched : Nat → Bool)
    (st st' : RoboSt) (cs : List RCtrl) (evs : List REv)
    (h : run_int_list reg sched (reset_state st) cs = .ok (st', evs)) :
    st'.interrupted = false := by
  exact (run_int_list_spec _ _ _ _ _ _ h).2.2.2 rfl

/-- C3 witness: a reverse pass bombarded with `interrupt()` requests at
every step still ends with `interrupted = false`. -/
theorem c3_witness :
    (⟨some "A", false, false, true, 2⟩ : RoboSt).interrupted = false := by
  exact c3_reverse_uninterruptible ["A"] (fun _ => true)
    ⟨some "A", true, true, true, 0⟩ ⟨some "A", false, false, true, 2⟩
    [RCtrl.sel "A" none, RCtrl.tang 0 true, RCtrl.tang 1 true]
    [REv.select_component "A" none, REv.dev_execute "A" 0 true]
    (by decide)
